import Mathlib

/-!
Shallow embedding of the PNG codec and raster compositor in
`src/logo/embedLogo.ts` (qr-code-forge).

Byte buffers (`Buffer` / `Uint8Array`) are modelled as `List Nat`; every
write into a `Uint8Array` is wrapped `% 256`, matching JavaScript's
`ToUint8` coercion, and out-of-range reads default to `0` (JS `undefined`
coerces to `0` when stored into a typed array).  JavaScript number
arithmetic on the small integral and rational values used here is modelled
exactly over `ℚ`, with `Math.round` as `⌊q + 1/2⌋` (JS rounds half toward
+∞).  The zlib deflate/inflate calls are external to the repository and are
passed in as function parameters.
-/

namespace QRForge

/-- JS `Math.round`: rounds half toward +∞, exact on ℚ. -/
def jsround (q : ℚ) : ℤ := ⌊q + 1/2⌋

/-- Model of `buf.readUInt32BE(offset)`: big-endian 32-bit read (bytes out of range read as 0). -/
def readUInt32BE (buf : List Nat) (offset : Nat) : Nat :=
  buf.getD offset 0 * 2^24 + buf.getD (offset+1) 0 * 2^16 +
  buf.getD (offset+2) 0 * 2^8 + buf.getD (offset+3) 0

/-- Model of `buf.writeUInt32BE(n)`: the four big-endian bytes of a `u32`. -/
def u32be (n : Nat) : List Nat :=
  [n / 2^24 % 256, n / 2^16 % 256, n / 2^8 % 256, n % 256]

/-- Definition `paethPredictor(a, b, c)` from the source: `p = a + b - c`, pick among
`a`, `b`, `c` whichever is nearest to `p`, ties broken `a`, then `b`. -/
def paethPredictor (a b c : Nat) : Nat :=
  let p : ℤ := (a : ℤ) + b - c
  let pa := (p - a).natAbs
  let pb := (p - b).natAbs
  let pc := (p - c).natAbs
  if pa ≤ pb ∧ pa ≤ pc then a
  else if pb ≤ pc then b
  else c

/-- One entry of the 256-entry CRC table (`crcTable[n]` in the source):
eight rounds of `c = c & 1 ? 0xedb88320 ^ (c >>> 1) : c >>> 1`. -/
def crcTable (n : Nat) : Nat :=
  (List.range 8).foldl
    (fun c _ => if c % 2 = 1 then Nat.xor 0xedb88320 (c / 2) else c / 2) n

/-- Definition `crc32(buf)` from the source: table-driven reflected CRC-32 with initial
value `0xffffffff` and final xor `0xffffffff`. -/
def crc32 (buf : List Nat) : Nat :=
  Nat.xor
    (buf.foldl (fun crc b => Nat.xor (crcTable ((Nat.xor crc b) % 256)) (crc / 2^8))
      0xffffffff)
    0xffffffff

/-- Interface `RawImage` from the source: width, height and a row-major RGBA byte buffer. -/
structure RawImage where
  width : Nat
  height : Nat
  data : List Nat
deriving DecidableEq, Repr

/-- PNG magic bytes (`PNG_SIG` in the source). -/
def PNG_SIG : List Nat := [137, 80, 78, 71, 13, 10, 26, 10]

/-- The four ASCII bytes of the chunk tag `IHDR`. -/
def IHDR_TYPE : List Nat := [73, 72, 68, 82]

/-- The four ASCII bytes of the chunk tag `IDAT`. -/
def IDAT_TYPE : List Nat := [73, 68, 65, 84]

/-- The four ASCII bytes of the chunk tag `IEND`. -/
def IEND_TYPE : List Nat := [73, 69, 78, 68]

/-- Channel count by color type (from `unfilterPNG`):
4 for RGBA(6), 3 for RGB(2), 2 for gray+alpha(4), else 1. -/
def channelsOf (colorType : Nat) : Nat :=
  if colorType = 6 then 4 else if colorType = 2 then 3 else if colorType = 4 then 2 else 1

/-- One byte of the in-place filter reconstruction loop in `unfilterPNG`:
`cur` is the already-reconstructed prefix of the current row, `i` the byte
index, `x` the raw (filtered) byte.  Unknown filter types fall through the
`switch` and leave the byte unchanged. -/
def unfilterByte (filterByte : Nat) (prevRow cur : List Nat) (bpp i x : Nat) : Nat :=
  let a := if bpp ≤ i then cur.getD (i - bpp) 0 else 0
  let b := prevRow.getD i 0
  let c := if bpp ≤ i then prevRow.getD (i - bpp) 0 else 0
  match filterByte with
  | 0 => x
  | 1 => (x + a) % 256
  | 2 => (x + b) % 256
  | 3 => (x + (a + b) / 2) % 256
  | 4 => (x + paethPredictor a b c) % 256
  | _ => x

/-- The per-row filter reconstruction loop of `unfilterPNG`: left-to-right,
each byte may reference the already-reconstructed left neighbour. -/
def unfilterRow (filterByte : Nat) (rawRow prevRow : List Nat) (bpp : Nat) : List Nat :=
  (List.range rawRow.length).foldl
    (fun cur i => cur ++ [unfilterByte filterByte prevRow cur bpp i (rawRow.getD i 0)]) []

/-- The per-row RGBA expansion loop of `unfilterPNG`: 4 channels pass
through, 3 get alpha 255, 2 replicate gray and keep alpha, 1 replicates
gray with alpha 255.  Writes into the `Uint8Array` output wrap `% 256`. -/
def rowToRGBA (cur : List Nat) (width channels : Nat) : List Nat :=
  (List.range width).flatMap (fun x =>
    if channels = 4 then
      [cur.getD (x*4) 0 % 256, cur.getD (x*4+1) 0 % 256,
       cur.getD (x*4+2) 0 % 256, cur.getD (x*4+3) 0 % 256]
    else if channels = 3 then
      [cur.getD (x*3) 0 % 256, cur.getD (x*3+1) 0 % 256,
       cur.getD (x*3+2) 0 % 256, 255]
    else if channels = 2 then
      [cur.getD (x*2) 0 % 256, cur.getD (x*2) 0 % 256,
       cur.getD (x*2) 0 % 256, cur.getD (x*2+1) 0 % 256]
    else
      [cur.getD x 0 % 256, cur.getD x 0 % 256, cur.getD x 0 % 256, 255])

/-- One iteration of `unfilterPNG`'s row loop: row `y` starts at
`raw[y*(stride+1)]` with a filter byte, followed by `stride` raw row bytes
(wrapped `% 256` when copied into the `Uint8Array` `curRow`); the row is
reconstructed against the previous reconstructed row and its RGBA
expansion appended to the output accumulator. -/
def unfilterStep (raw : List Nat) (width channels bpp stride : Nat)
    (acc : List Nat × List Nat) (y : Nat) : List Nat × List Nat :=
  let filterByte := raw.getD (y * (stride + 1)) 0
  let rawRow := (List.range stride).map (fun i => raw.getD (y * (stride + 1) + 1 + i) 0 % 256)
  let cur := unfilterRow filterByte rawRow acc.2 bpp
  (acc.1 ++ rowToRGBA cur width channels, cur)

/-- Definition `unfilterPNG(raw, width, height, colorType, bitDepth)` from
the source: fold `unfilterStep` over the rows, starting from an empty
output and an all-zero previous row. -/
def unfilterPNG (raw : List Nat) (width height colorType bitDepth : Nat) : List Nat :=
  let channels := channelsOf colorType
  let bpp := channels * bitDepth / 8
  let stride := width * bpp
  ((List.range height).foldl (unfilterStep raw width channels bpp stride)
    (([] : List Nat), List.replicate stride 0)).1

/-- Definition `makeChunk(type, data)` from the source:
`length(4B BE) || type || data || crc32(type || data)(4B BE)`. -/
def makeChunk (ty data : List Nat) : List Nat :=
  u32be data.length ++ ty ++ data ++ u32be (crc32 (ty ++ data))

/-- The scanline serialization loop of `encodePNG`: for each row a filter
byte 0 followed by the row's RGBA bytes (wrapped `% 256` by the buffer
write, missing bytes read as 0). -/
def buildScanlines (image : RawImage) : List Nat :=
  (List.range image.height).flatMap (fun y =>
    0 :: (List.range image.width).flatMap (fun x =>
      let idx := (y * image.width + x) * 4
      [image.data.getD idx 0 % 256, image.data.getD (idx+1) 0 % 256,
       image.data.getD (idx+2) 0 % 256, image.data.getD (idx+3) 0 % 256]))

/-- The 13-byte IHDR body written by `encodePNG`: width, height,
bitDepth 8, colorType 6 (RGBA), compression 0, filter 0, interlace 0. -/
def ihdrData (width height : Nat) : List Nat :=
  u32be width ++ u32be height ++ [8, 6, 0, 0, 0]

/-- Definition `encodePNG(image)` from the source.  The zlib deflate call is external
to the repository and is passed in as a function parameter. -/
def encodePNG (deflate : List Nat → List Nat) (image : RawImage) : List Nat :=
  let compressed := deflate (buildScanlines image)
  PNG_SIG ++ makeChunk IHDR_TYPE (ihdrData image.width image.height) ++
    makeChunk IDAT_TYPE compressed ++ makeChunk IEND_TYPE []

/-- The mutable header/IDAT state of `decodePNG`'s chunk-walking loop. -/
structure ChunkState where
  width : Nat
  height : Nat
  bitDepth : Nat
  colorType : Nat
  idat : List (List Nat)
deriving DecidableEq, Repr

/-- The 4-byte ASCII chunk tag at `offset+4`: Node's `'ascii'` decoding
masks each byte to 7 bits. -/
def chunkTypeAt (buf : List Nat) (offset : Nat) : List Nat :=
  [buf.getD (offset+4) 0 % 128, buf.getD (offset+5) 0 % 128,
   buf.getD (offset+6) 0 % 128, buf.getD (offset+7) 0 % 128]

/-- The `while (offset < buf.length)` chunk walk of `decodePNG`.  Each
iteration advances `offset` by `12 + length ≥ 12`, so `buf.length` units of
fuel always suffice; `decodePNG` below passes exactly that. -/
def walkChunks (buf : List Nat) : Nat → Nat → ChunkState → ChunkState
  | 0, _, st => st
  | fuel + 1, offset, st =>
    if offset < buf.length then
      let length := readUInt32BE buf offset
      let ty := chunkTypeAt buf offset
      let data := (buf.drop (offset + 8)).take length
      if ty = IHDR_TYPE then
        walkChunks buf fuel (offset + 12 + length)
          { st with width := readUInt32BE data 0, height := readUInt32BE data 4,
                    bitDepth := data.getD 8 0, colorType := data.getD 9 0 }
      else if ty = IDAT_TYPE then
        walkChunks buf fuel (offset + 12 + length) { st with idat := st.idat ++ [data] }
      else if ty = IEND_TYPE then st
      else walkChunks buf fuel (offset + 12 + length) st
    else st

/-- Whether the chunk walk starting at `offset` ever takes the IHDR branch
(same traversal order and stopping condition as `walkChunks`). -/
def sawIHDR (buf : List Nat) : Nat → Nat → Bool
  | 0, _ => false
  | fuel + 1, offset =>
    if offset < buf.length then
      let length := readUInt32BE buf offset
      let ty := chunkTypeAt buf offset
      if ty = IHDR_TYPE then true
      else if ty = IDAT_TYPE then sawIHDR buf fuel (offset + 12 + length)
      else if ty = IEND_TYPE then false
      else sawIHDR buf fuel (offset + 12 + length)
    else false

instance {ε α : Type} [DecidableEq ε] [DecidableEq α] : DecidableEq (Except ε α) := fun x y =>
  match x, y with
  | .error a, .error b =>
    if h : a = b then isTrue (by rw [h]) else isFalse (fun hh => h (by cases hh; rfl))
  | .error _, .ok _ => isFalse (fun hh => by cases hh)
  | .ok _, .error _ => isFalse (fun hh => by cases hh)
  | .ok a, .ok b =>
    if h : a = b then isTrue (by rw [h]) else isFalse (fun hh => h (by cases hh; rfl))

/-- Definition `decodePNG(buf)` from the source: signature check, chunk walk, zero
dimension check (the rejection message is the source's), inflate of the
concatenated IDAT payloads, then filter reconstruction.  The zlib inflate
call is external to the repository and is passed in as a function
parameter returning `none` on decompression failure. -/
def decodePNG (inflate : List Nat → Option (List Nat)) (buf : List Nat) :
    Except String RawImage :=
  if buf.length < 8 ∨ buf.take 8 ≠ PNG_SIG then .error "Not a valid PNG"
  else
    let st := walkChunks buf buf.length 8 ⟨0, 0, 0, 0, []⟩
    if st.width = 0 ∨ st.height = 0 then .error "Invalid PNG: missing IHDR"
    else
      match inflate st.idat.flatten with
      | none => .error "inflate error"
      | some raw =>
        .ok ⟨st.width, st.height, unfilterPNG raw st.width st.height st.colorType st.bitDepth⟩

/-- Read byte `i` of a typed-array buffer at a possibly negative index:
JS `undefined` coerces to 0 on the subsequent typed-array store; stored
values wrap `% 256`. -/
def byteAt (data : List Nat) (i : ℤ) : Nat :=
  if 0 ≤ i then data.getD i.toNat 0 % 256 else 0

/-- Definition `scaleImage(src, dstW, dstH)` from the source: nearest-neighbour
resampling, `src(X|Y) = min(round(pos / dstDim * srcDim), srcDim - 1)`. -/
def scaleImage (src : RawImage) (dstW dstH : Nat) : RawImage :=
  let data := (List.range dstH).flatMap (fun y =>
    let srcY : ℤ := min (jsround ((y : ℚ) / dstH * src.height)) ((src.height : ℤ) - 1)
    (List.range dstW).flatMap (fun x =>
      let srcX : ℤ := min (jsround ((x : ℚ) / dstW * src.width)) ((src.width : ℤ) - 1)
      let si : ℤ := (srcY * src.width + srcX) * 4
      [byteAt src.data si, byteAt src.data (si+1),
       byteAt src.data (si+2), byteAt src.data (si+3)]))
  ⟨dstW, dstH, data⟩

/-- Store four bytes at indices `idx..idx+3` of an RGBA buffer (typed-array
stores wrap `% 256`; out-of-range stores are dropped, as `List.set` is). -/
def setPixel (data : List Nat) (idx r g b a : Nat) : List Nat :=
  (((data.set idx (r % 256)).set (idx+1) (g % 256)).set (idx+2) (b % 256)).set (idx+3) (a % 256)

/-- The four bytes of pixel `(px, py)` of a width-`W` RGBA buffer. -/
def getPixel (data : List Nat) (W px py : Nat) : Nat × Nat × Nat × Nat :=
  ((data.getD ((py * W + px) * 4) 0), (data.getD ((py * W + px) * 4 + 1) 0),
   (data.getD ((py * W + px) * 4 + 2) 0), (data.getD ((py * W + px) * 4 + 3) 0))

/-- One iteration of `fillRect`'s inner loop: destination coordinates
outside `[0,width) × [0,height)` are skipped (`continue`), otherwise the
pixel is overwritten with the flat colour. -/
def fillPixel (W H : Nat) (x y : ℤ) (r g b a : Nat) (d2 : List Nat) (dy dx : Nat) : List Nat :=
  let px : ℤ := x + (dx : ℤ)
  let py : ℤ := y + (dy : ℤ)
  if px < 0 ∨ (W : ℤ) ≤ px ∨ py < 0 ∨ (H : ℤ) ≤ py then d2
  else setPixel d2 ((py.toNat * W + px.toNat) * 4) r g b a

/-- Definition `fillRect(img, x, y, w, h, r, g, b, a)` from the source:
row-major loop over the `w × h` rectangle, each pixel handled by
`fillPixel`. -/
def fillRect (img : RawImage) (x y : ℤ) (w h : Nat) (r g b a : Nat) : RawImage :=
  { img with data :=
    (List.range h).foldl (fun d dy =>
      (List.range w).foldl
        (fun d2 dx => fillPixel img.width img.height x y r g b a d2 dy dx) d) img.data }

/-- The per-pixel source-over arithmetic of `compositeOver`'s loop body:
`sa = srcA/255`, `da = dstA/255`, `outA = sa + da*(1-sa)`; transparent
black when `outA = 0`, otherwise the un-premultiplied rounded channels. -/
def blendPixel (sr sg sb sa0 dr dg db da0 : Nat) : Nat × Nat × Nat × Nat :=
  let sa : ℚ := sa0 / 255
  let da : ℚ := da0 / 255
  let outA := sa + da * (1 - sa)
  if outA = 0 then (0, 0, 0, 0)
  else
    ((jsround ((sr * sa + dr * da * (1 - sa)) / outA)).toNat,
     (jsround ((sg * sa + dg * da * (1 - sa)) / outA)).toNat,
     (jsround ((sb * sa + db * da * (1 - sa)) / outA)).toNat,
     (jsround (outA * 255)).toNat)

/-- One iteration of `compositeOver`'s inner loop: destination coordinates
outside the bounds are skipped (`continue`), otherwise the destination
pixel is blended in place with `blendPixel`. -/
def compositePixel (src : RawImage) (W H : Nat) (ox oy : ℤ) (d2 : List Nat) (y x : Nat) :
    List Nat :=
  let dx : ℤ := ox + (x : ℤ)
  let dy : ℤ := oy + (y : ℤ)
  if dx < 0 ∨ (W : ℤ) ≤ dx ∨ dy < 0 ∨ (H : ℤ) ≤ dy then d2
  else
    let si := (y * src.width + x) * 4
    let di := (dy.toNat * W + dx.toNat) * 4
    let p := blendPixel (src.data.getD si 0) (src.data.getD (si+1) 0)
               (src.data.getD (si+2) 0) (src.data.getD (si+3) 0)
               (d2.getD di 0) (d2.getD (di+1) 0) (d2.getD (di+2) 0) (d2.getD (di+3) 0)
    setPixel d2 di p.1 p.2.1 p.2.2.1 p.2.2.2

/-- Definition `compositeOver(dst, src, ox, oy)` from the source: row-major
loop over the source, each pixel handled by `compositePixel`. -/
def compositeOver (dst src : RawImage) (ox oy : ℤ) : RawImage :=
  { dst with data :=
    (List.range src.height).foldl (fun d (y : Nat) =>
      (List.range src.width).foldl (fun d2 (x : Nat) =>
        compositePixel src dst.width dst.height ox oy d2 y x) d) dst.data }

/-- Definition `embedLogo` from the source, at the decode/composite/encode level: the
logo bytes have already been resolved by `loadImage` (filesystem/network
I/O, external to the codec), and the zlib calls are passed as parameters.
The two `LogoError` messages are the source's. -/
def embedLogo (deflate : List Nat → List Nat) (inflate : List Nat → Option (List Nat))
    (qrBuffer logoBytes : List Nat) (sizePercent margin : Nat) : Except String (List Nat) :=
  match decodePNG inflate qrBuffer with
  | .error _ => .error "Failed to decode QR PNG image."
  | .ok qrImage =>
    match decodePNG inflate logoBytes with
    | .error _ =>
      .error "Failed to decode logo image. Only PNG format is supported for logo embedding."
    | .ok logoImage =>
      let targetWidth := (jsround ((qrImage.width * sizePercent : ℚ) / 100)).toNat
      let targetHeight := (jsround ((targetWidth : ℚ) / logoImage.width * logoImage.height)).toNat
      let scaledLogo := scaleImage logoImage targetWidth targetHeight
      let totalWidth := targetWidth + margin * 2
      let totalHeight := targetHeight + margin * 2
      let offsetX := jsround (((qrImage.width : ℚ) - totalWidth) / 2)
      let offsetY := jsround (((qrImage.height : ℚ) - totalHeight) / 2)
      let qrFilled := fillRect qrImage offsetX offsetY totalWidth totalHeight 255 255 255 255
      let qrFinal := compositeOver qrFilled scaledLogo (offsetX + margin) (offsetY + margin)
      .ok (encodePNG deflate qrFinal)

/-- Abstraction of the `cur ++ [g cur i]` accumulation pattern shared by the
row-reconstruction loops: the list built after `n` steps. -/
def foldAppend (g : List Nat → Nat → Nat) (n : Nat) : List Nat :=
  (List.range n).foldl (fun cur i => cur ++ [g cur i]) []

/-- Componentwise `% 256` wrap applied by the four `Uint8Array` stores of a
pixel write. -/
def wrap4 (t : Nat × Nat × Nat × Nat) : Nat × Nat × Nat × Nat :=
  (t.1 % 256, t.2.1 % 256, t.2.2.1 % 256, t.2.2.2 % 256)

lemma getD_drop (l : List Nat) (n i : Nat) : (l.drop n).getD i 0 = l.getD (n + i) 0 := by
  simp [List.getD_eq_getD_get?, List.get?_eq_getElem?, List.getElem?_drop]

lemma getD_set_ne (l : List Nat) (i j a : Nat) (h : i ≠ j) :
    (l.set i a).getD j 0 = l.getD j 0 := by
  simp [List.getD_eq_getD_get?, List.get?_eq_getElem?, List.getElem?_set_ne h]

lemma getD_set_self (l : List Nat) (i a : Nat) (h : i < l.length) :
    (l.set i a).getD i 0 = a := by
  simp [List.getD_eq_getD_get?, List.get?_eq_getElem?, List.getElem?_set_eq_of_lt a h]

lemma readUInt32BE_drop (l : List Nat) (n : Nat) :
    readUInt32BE (l.drop n) 0 = readUInt32BE l n := by
  simp [readUInt32BE, getD_drop]

lemma readUInt32BE_u32be (n : Nat) (h : n < 2^32) (rest : List Nat) :
    readUInt32BE (u32be n ++ rest) 0 = n := by
  simp [readUInt32BE, u32be]
  omega

lemma flatMap_range_length (f : Nat → List Nat) (L n : Nat)
    (hf : ∀ i, i < n → (f i).length = L) :
    ((List.range n).flatMap f).length = n * L := by
  induction n with
  | zero => simp
  | succ m ih =>
    rw [List.range_succ, List.flatMap_append]
    simp [ih (fun i hi => hf i (by omega)), hf m (by omega), Nat.succ_mul]

lemma flatMap_range_getD (f : Nat → List Nat) (L n q r : Nat)
    (hf : ∀ i, i < n → (f i).length = L) (hq : q < n) (hr : r < L) :
    ((List.range n).flatMap f).getD (q * L + r) 0 = (f q).getD r 0 := by
  induction n with
  | zero => omega
  | succ m ih =>
    rw [List.range_succ, List.flatMap_append]
    have hlen : ((List.range m).flatMap f).length = m * L :=
      flatMap_range_length f L m (fun i hi => hf i (by omega))
    rcases Nat.lt_or_ge q m with hc | hc
    · rw [List.getD_append]
      · exact ih (fun i hi => hf i (by omega)) hc
      · rw [hlen]
        have h1 : q * L + r < (q + 1) * L := by
          have : (q + 1) * L = q * L + L := by ring
          omega
        have h2 : (q + 1) * L ≤ m * L := Nat.mul_le_mul_right L (by omega)
        omega
    · have hqm : q = m := by omega
      subst hqm
      rw [List.getD_append_right _ _ _ _ (by rw [hlen]; omega)]
      simp [hlen]

lemma foldAppend_succ (g : List Nat → Nat → Nat) (n : Nat) :
    foldAppend g (n + 1) = foldAppend g n ++ [g (foldAppend g n) n] := by
  unfold foldAppend
  rw [List.range_succ, List.foldl_append]
  rfl

lemma foldAppend_length (g : List Nat → Nat → Nat) (n : Nat) :
    (foldAppend g n).length = n := by
  induction n with
  | zero => rfl
  | succ m ih => rw [foldAppend_succ]; simp [ih]

lemma foldAppend_take (g : List Nat → Nat → Nat) (m n : Nat) (h : m ≤ n) :
    (foldAppend g n).take m = foldAppend g m := by
  induction n with
  | zero =>
    have hm : m = 0 := by omega
    subst hm; rfl
  | succ k ih =>
    rcases Nat.lt_or_ge m (k + 1) with hc | hc
    · rw [foldAppend_succ,
        List.take_append_of_le_length (by rw [foldAppend_length]; omega)]
      exact ih (by omega)
    · have hm : m = k + 1 := by omega
      subst hm
      exact List.take_of_length_le (by rw [foldAppend_length])

lemma foldAppend_getD (g : List Nat → Nat → Nat) (n i : Nat) (h : i < n) :
    (foldAppend g n).getD i 0 = g (foldAppend g i) i := by
  have h1 : foldAppend g n = foldAppend g (i + 1) ++ (foldAppend g n).drop (i + 1) := by
    rw [← foldAppend_take g (i + 1) n (by omega), List.take_append_drop]
  rw [h1, List.getD_append _ _ _ _ (by rw [foldAppend_length]; omega),
    foldAppend_succ, List.getD_append_right _ _ _ _ (by rw [foldAppend_length])]
  simp [foldAppend_length]

lemma unfilterRow_eq_foldAppend (fb : Nat) (raw prev : List Nat) (bpp : Nat) :
    unfilterRow fb raw prev bpp =
      foldAppend (fun cur i => unfilterByte fb prev cur bpp i (raw.getD i 0)) raw.length := rfl

lemma unfilterRow_length (fb : Nat) (raw prev : List Nat) (bpp : Nat) :
    (unfilterRow fb raw prev bpp).length = raw.length := by
  rw [unfilterRow_eq_foldAppend]; exact foldAppend_length _ _

lemma unfilterRow_getD (fb : Nat) (raw prev : List Nat) (bpp i : Nat) (h : i < raw.length) :
    (unfilterRow fb raw prev bpp).getD i 0 =
      unfilterByte fb prev ((unfilterRow fb raw prev bpp).take i) bpp i (raw.getD i 0) := by
  rw [unfilterRow_eq_foldAppend, foldAppend_getD _ _ _ h, foldAppend_take _ i _ (by omega)]

lemma unfilterByte_passthrough (fb : Nat) (prev cur : List Nat) (bpp i x : Nat)
    (h : fb = 0 ∨ 5 ≤ fb) : unfilterByte fb prev cur bpp i x = x := by
  rcases h with h | h
  · subst h; rfl
  · match fb, h with
    | n + 5, _ => rfl

lemma unfilterRow_passthrough (fb : Nat) (raw prev : List Nat) (bpp : Nat)
    (h : fb = 0 ∨ 5 ≤ fb) : unfilterRow fb raw prev bpp = raw := by
  apply List.ext_getElem (unfilterRow_length fb raw prev bpp)
  intro i h1 h2
  rw [← List.getD_eq_getElem _ 0 h1, ← List.getD_eq_getElem _ 0 h2,
    unfilterRow_getD fb raw prev bpp i h2, unfilterByte_passthrough _ _ _ _ _ _ h]

lemma rowToRGBA_length (cur : List Nat) (width channels : Nat) :
    (rowToRGBA cur width channels).length = width * 4 := by
  unfold rowToRGBA
  apply flatMap_range_length
  intro i _
  split_ifs <;> rfl

lemma foldl_range_succ {α : Type} (f : α → Nat → α) (acc : α) (n : Nat) :
    (List.range (n + 1)).foldl f acc = f ((List.range n).foldl f acc) n := by
  rw [List.range_succ, List.foldl_append]
  rfl

lemma unfilterStep_fst (raw : List Nat) (width channels bpp stride : Nat)
    (acc : List Nat × List Nat) (y : Nat) :
    (unfilterStep raw width channels bpp stride acc y).1 =
      acc.1 ++ rowToRGBA (unfilterRow (raw.getD (y * (stride + 1)) 0)
        ((List.range stride).map (fun i => raw.getD (y * (stride + 1) + 1 + i) 0 % 256))
        acc.2 bpp) width channels := rfl

lemma unfilterPNG_fold_length (raw : List Nat) (width channels bpp stride n : Nat)
    (acc : List Nat × List Nat) :
    (((List.range n).foldl (unfilterStep raw width channels bpp stride) acc).1).length =
      acc.1.length + n * (width * 4) := by
  induction n with
  | zero => simp
  | succ m ih =>
    rw [foldl_range_succ, unfilterStep_fst]
    simp only [List.length_append, rowToRGBA_length]
    rw [ih]
    ring

lemma unfilterPNG_length (raw : List Nat) (width height colorType bitDepth : Nat) :
    (unfilterPNG raw width height colorType bitDepth).length = width * height * 4 := by
  unfold unfilterPNG
  rw [unfilterPNG_fold_length]
  simp only [List.length_nil, Nat.zero_add]
  ring

lemma unfilterPNG_fold_out (raw : List Nat) (width channels bpp stride n : Nat)
    (acc : List Nat × List Nat)
    (hfb : ∀ y, y < n →
      raw.getD (y * (stride + 1)) 0 = 0 ∨ 5 ≤ raw.getD (y * (stride + 1)) 0) :
    ((List.range n).foldl (unfilterStep raw width channels bpp stride) acc).1 =
      acc.1 ++ (List.range n).flatMap (fun y =>
        rowToRGBA ((List.range stride).map
          (fun i => raw.getD (y * (stride + 1) + 1 + i) 0 % 256)) width channels) := by
  induction n with
  | zero => simp
  | succ m ih =>
    rw [foldl_range_succ, unfilterStep_fst, List.range_succ, List.flatMap_append]
    simp only [List.flatMap_cons, List.flatMap_nil, List.append_nil]
    rw [unfilterRow_passthrough _ _ _ _ (hfb m (by omega)),
      ih (fun y hy => hfb y (by omega)), List.append_assoc]

lemma makeChunk_length (ty data : List Nat) (h : ty.length = 4) :
    (makeChunk ty data).length = 12 + data.length := by
  simp [makeChunk, u32be, h]
  omega

lemma chunkHeader (buf : List Nat) (offset : Nat) (t0 t1 t2 t3 : Nat) (d rest : List Nat)
    (hdrop : buf.drop offset = makeChunk [t0, t1, t2, t3] d ++ rest)
    (h0 : t0 < 128) (h1 : t1 < 128) (h2 : t2 < 128) (h3 : t3 < 128)
    (hd : d.length < 2^32) :
    readUInt32BE buf offset = d.length ∧
    chunkTypeAt buf offset = [t0, t1, t2, t3] ∧
    (buf.drop (offset + 8)).take d.length = d ∧
    offset < buf.length ∧
    buf.drop (offset + 12 + d.length) = rest := by
  have hshape : makeChunk [t0, t1, t2, t3] d ++ rest =
      u32be d.length ++ ([t0, t1, t2, t3] ++ (d ++
        (u32be (crc32 ([t0, t1, t2, t3] ++ d)) ++ rest))) := by
    simp [makeChunk, List.append_assoc]
  have hlen : readUInt32BE buf offset = d.length := by
    rw [← readUInt32BE_drop, hdrop, hshape]
    exact readUInt32BE_u32be _ hd _
  have hty : chunkTypeAt buf offset = [t0, t1, t2, t3] := by
    unfold chunkTypeAt
    have g4 : buf.getD (offset + 4) 0 = (buf.drop offset).getD 4 0 :=
      (getD_drop buf offset 4).symm
    have g5 : buf.getD (offset + 5) 0 = (buf.drop offset).getD 5 0 :=
      (getD_drop buf offset 5).symm
    have g6 : buf.getD (offset + 6) 0 = (buf.drop offset).getD 6 0 :=
      (getD_drop buf offset 6).symm
    have g7 : buf.getD (offset + 7) 0 = (buf.drop offset).getD 7 0 :=
      (getD_drop buf offset 7).symm
    rw [g4, g5, g6, g7, hdrop, hshape]
    simp [u32be, Nat.mod_eq_of_lt, h0, h1, h2, h3]
  have hdata : (buf.drop (offset + 8)).take d.length = d := by
    have hdd : buf.drop (offset + 8) = (buf.drop offset).drop 8 := by
      rw [List.drop_drop]
    rw [hdd, hdrop, hshape]
    have hgrp : u32be d.length ++ ([t0, t1, t2, t3] ++ (d ++
        (u32be (crc32 ([t0, t1, t2, t3] ++ d)) ++ rest))) =
        (u32be d.length ++ [t0, t1, t2, t3]) ++ (d ++
          (u32be (crc32 ([t0, t1, t2, t3] ++ d)) ++ rest)) := by
      simp [List.append_assoc]
    rw [hgrp, List.drop_left' (by simp [u32be]), List.take_left' rfl]
  have hofs : offset < buf.length := by
    have hl := congrArg List.length hdrop
    rw [List.length_drop, List.length_append, makeChunk_length _ _ (by rfl)] at hl
    omega
  have hrest : buf.drop (offset + 12 + d.length) = rest := by
    have hdd : buf.drop (offset + 12 + d.length) =
        (buf.drop offset).drop (12 + d.length) := by
      rw [List.drop_drop, Nat.add_assoc]
    rw [hdd, hdrop, List.drop_left' (makeChunk_length _ _ (by rfl))]
  exact ⟨hlen, hty, hdata, hofs, hrest⟩

lemma walkChunks_IHDR (buf : List Nat) (fuel offset : Nat) (st : ChunkState)
    (d rest : List Nat) (hdrop : buf.drop offset = makeChunk IHDR_TYPE d ++ rest)
    (hd : d.length < 2^32) :
    walkChunks buf (fuel + 1) offset st =
      walkChunks buf fuel (offset + 12 + d.length)
        { st with width := readUInt32BE d 0, height := readUInt32BE d 4,
                  bitDepth := d.getD 8 0, colorType := d.getD 9 0 } := by
  obtain ⟨hlen, hty, hdata, hofs, -⟩ :=
    chunkHeader buf offset 73 72 68 82 d rest hdrop (by omega) (by omega) (by omega)
      (by omega) hd
  simp only [walkChunks]
  rw [if_pos hofs, hlen, hty, hdata]
  rw [if_pos (show ([73, 72, 68, 82] : List Nat) = IHDR_TYPE from rfl)]

lemma walkChunks_IDAT (buf : List Nat) (fuel offset : Nat) (st : ChunkState)
    (d rest : List Nat) (hdrop : buf.drop offset = makeChunk IDAT_TYPE d ++ rest)
    (hd : d.length < 2^32) :
    walkChunks buf (fuel + 1) offset st =
      walkChunks buf fuel (offset + 12 + d.length) { st with idat := st.idat ++ [d] } := by
  obtain ⟨hlen, hty, hdata, hofs, -⟩ :=
    chunkHeader buf offset 73 68 65 84 d rest hdrop (by omega) (by omega) (by omega)
      (by omega) hd
  simp only [walkChunks]
  rw [if_pos hofs, hlen, hty, hdata]
  rw [if_neg (show ¬ ([73, 68, 65, 84] : List Nat) = IHDR_TYPE by decide)]
  rw [if_pos (show ([73, 68, 65, 84] : List Nat) = IDAT_TYPE from rfl)]

lemma walkChunks_IEND (buf : List Nat) (fuel offset : Nat) (st : ChunkState)
    (d rest : List Nat) (hdrop : buf.drop offset = makeChunk IEND_TYPE d ++ rest)
    (hd : d.length < 2^32) :
    walkChunks buf (fuel + 1) offset st = st := by
  obtain ⟨hlen, hty, hdata, hofs, -⟩ :=
    chunkHeader buf offset 73 69 78 68 d rest hdrop (by omega) (by omega) (by omega)
      (by omega) hd
  simp only [walkChunks]
  rw [if_pos hofs, hty]
  rw [if_neg (show ¬ ([73, 69, 78, 68] : List Nat) = IHDR_TYPE by decide)]
  rw [if_neg (show ¬ ([73, 69, 78, 68] : List Nat) = IDAT_TYPE by decide)]
  rw [if_pos (show ([73, 69, 78, 68] : List Nat) = IEND_TYPE from rfl)]

lemma walkChunks_dims_of_not_sawIHDR (buf : List Nat) (fuel : Nat) :
    ∀ (offset : Nat) (st : ChunkState), sawIHDR buf fuel offset = false →
      (walkChunks buf fuel offset st).width = st.width ∧
      (walkChunks buf fuel offset st).height = st.height := by
  induction fuel with
  | zero => intro offset st h; exact ⟨rfl, rfl⟩
  | succ n ih =>
    intro offset st h
    simp only [sawIHDR] at h
    simp only [walkChunks]
    by_cases hofs : offset < buf.length
    · rw [if_pos hofs] at h ⊢
      by_cases hihdr : chunkTypeAt buf offset = IHDR_TYPE
      · rw [if_pos hihdr] at h
        exact absurd h (by simp)
      · rw [if_neg hihdr] at h ⊢
        by_cases hidat : chunkTypeAt buf offset = IDAT_TYPE
        · rw [if_pos hidat] at h ⊢
          exact ih _ _ h
        · rw [if_neg hidat] at h ⊢
          by_cases hiend : chunkTypeAt buf offset = IEND_TYPE
          · rw [if_pos hiend]
            exact ⟨rfl, rfl⟩
          · rw [if_neg hiend] at h ⊢
            exact ih _ _ h
    · rw [if_neg hofs]
      exact ⟨rfl, rfl⟩

lemma jsround_natCast (n : Nat) : jsround (n : ℚ) = n := by
  unfold jsround
  rw [Int.floor_eq_iff]
  constructor
  · push_cast
    linarith
  · push_cast
    linarith

lemma blendPixel_opaque (sr sg sb dr dg db da0 : Nat) :
    blendPixel sr sg sb 255 dr dg db da0 = (sr, sg, sb, 255) := by
  simp only [blendPixel]
  have h1 : ((255:Nat):ℚ)/255 = 1 := by norm_num
  rw [h1]
  have houtA : (1:ℚ) + (da0:ℚ)/255 * (1 - 1) = 1 := by ring
  rw [houtA, if_neg (by norm_num : ¬ (1:ℚ) = 0)]
  have hch : ∀ c d : Nat, ((c:ℚ) * 1 + (d:ℚ) * ((da0:ℚ)/255) * (1 - 1)) / 1 = (c:ℚ) := by
    intro c d
    ring
  rw [hch sr dr, hch sg dg, hch sb db, jsround_natCast, jsround_natCast, jsround_natCast]
  have h255 : (1:ℚ) * 255 = ((255:Nat):ℚ) := by norm_num
  rw [h255, jsround_natCast]
  rfl

lemma blendPixel_clear_src (sr sg sb dr dg db da0 : Nat) (h : 0 < da0) :
    blendPixel sr sg sb 0 dr dg db da0 = (dr, dg, db, da0) := by
  simp only [blendPixel]
  have h0 : ((0:Nat):ℚ)/255 = 0 := by norm_num
  rw [h0]
  have hda : (0:ℚ) < (da0:ℚ)/255 := by positivity
  have houtA : (0:ℚ) + (da0:ℚ)/255 * (1 - 0) = (da0:ℚ)/255 := by ring
  rw [houtA, if_neg (by linarith)]
  have hch : ∀ c d : Nat,
      ((c:ℚ) * 0 + (d:ℚ) * ((da0:ℚ)/255) * (1 - 0)) / ((da0:ℚ)/255) = (d:ℚ) := by
    intro c d
    field_simp
  rw [hch sr dr, hch sg dg, hch sb db, jsround_natCast, jsround_natCast, jsround_natCast]
  have h255 : (da0:ℚ)/255 * 255 = ((da0:Nat):ℚ) := by field_simp
  rw [h255, jsround_natCast]
  rfl

lemma blendPixel_clear_both (sr sg sb dr dg db : Nat) :
    blendPixel sr sg sb 0 dr dg db 0 = (0, 0, 0, 0) := by
  simp only [blendPixel]
  rw [if_pos (by norm_num)]

lemma setPixel_length (data : List Nat) (idx r g b a : Nat) :
    (setPixel data idx r g b a).length = data.length := by
  simp [setPixel]

lemma getD_setPixel_ne (data : List Nat) (idx r g b a j : Nat)
    (h : j < idx ∨ idx + 4 ≤ j) :
    (setPixel data idx r g b a).getD j 0 = data.getD j 0 := by
  unfold setPixel
  rw [getD_set_ne _ _ _ _ (by omega), getD_set_ne _ _ _ _ (by omega),
    getD_set_ne _ _ _ _ (by omega), getD_set_ne _ _ _ _ (by omega)]

lemma getD_setPixel_self (data : List Nat) (idx r g b a : Nat)
    (h : idx + 3 < data.length) :
    (setPixel data idx r g b a).getD idx 0 = r % 256 ∧
    (setPixel data idx r g b a).getD (idx + 1) 0 = g % 256 ∧
    (setPixel data idx r g b a).getD (idx + 2) 0 = b % 256 ∧
    (setPixel data idx r g b a).getD (idx + 3) 0 = a % 256 := by
  unfold setPixel
  refine ⟨?_, ?_, ?_, ?_⟩
  · rw [getD_set_ne _ _ _ _ (by omega), getD_set_ne _ _ _ _ (by omega),
      getD_set_ne _ _ _ _ (by omega), getD_set_self _ _ _ (by omega)]
  · rw [getD_set_ne _ _ _ _ (by omega), getD_set_ne _ _ _ _ (by omega),
      getD_set_self _ _ _ (by simp only [List.length_set]; omega)]
  · rw [getD_set_ne _ _ _ _ (by omega),
      getD_set_self _ _ _ (by simp only [List.length_set]; omega)]
  · rw [getD_set_self _ _ _ (by simp only [List.length_set]; omega)]

lemma pixel_index_ne (W px px0 py py0 : Nat) (h1 : px < W) (h2 : px0 < W)
    (hne : ¬ (px = px0 ∧ py = py0)) : py * W + px ≠ py0 * W + px0 := by
  rcases Nat.lt_trichotomy py py0 with hc | hc | hc
  · have hmul : (py + 1) * W ≤ py0 * W := Nat.mul_le_mul_right W (by omega)
    have : py * W + px < (py + 1) * W := by
      have : (py + 1) * W = py * W + W := by ring
      omega
    omega
  · subst hc
    have hpx : px ≠ px0 := fun hp => hne ⟨hp, rfl⟩
    omega
  · have hmul : (py0 + 1) * W ≤ py * W := Nat.mul_le_mul_right W (by omega)
    have : py0 * W + px0 < (py0 + 1) * W := by
      have : (py0 + 1) * W = py0 * W + W := by ring
      omega
    omega

lemma composite_row_invariant (src : RawImage) (W H : Nat) (ox oy : ℤ) (y : Nat)
    (d2 : List Nat) (hd2 : d2.length = W * H * 4) (n : Nat) :
    (((List.range n).foldl (fun d x => compositePixel src W H ox oy d y x) d2).length
        = W * H * 4) ∧
    ∀ px py : Nat, px < W → py < H →
      getPixel ((List.range n).foldl (fun d x => compositePixel src W H ox oy d y x) d2)
          W px py =
        (if ox ≤ (px:ℤ) ∧ (px:ℤ) < ox + n ∧ (py:ℤ) = oy + y then
          wrap4 (blendPixel
            (src.data.getD ((y * src.width + ((px:ℤ) - ox).toNat) * 4) 0)
            (src.data.getD ((y * src.width + ((px:ℤ) - ox).toNat) * 4 + 1) 0)
            (src.data.getD ((y * src.width + ((px:ℤ) - ox).toNat) * 4 + 2) 0)
            (src.data.getD ((y * src.width + ((px:ℤ) - ox).toNat) * 4 + 3) 0)
            (d2.getD ((py * W + px) * 4) 0) (d2.getD ((py * W + px) * 4 + 1) 0)
            (d2.getD ((py * W + px) * 4 + 2) 0) (d2.getD ((py * W + px) * 4 + 3) 0))
        else getPixel d2 W px py) := by
  induction n with
  | zero =>
    refine ⟨by simpa using hd2, ?_⟩
    intro px py hpx hpy
    rw [if_neg (by omega)]
    rfl
  | succ m ih =>
    obtain ⟨ihlen, ihget⟩ := ih
    rw [foldl_range_succ]
    by_cases hin : ox + (m:ℤ) < 0 ∨ (W:ℤ) ≤ ox + (m:ℤ) ∨ oy + (y:ℤ) < 0 ∨ (H:ℤ) ≤ oy + (y:ℤ)
    · have hskip : compositePixel src W H ox oy
          ((List.range m).foldl (fun d x => compositePixel src W H ox oy d y x) d2) y m =
          (List.range m).foldl (fun d x => compositePixel src W H ox oy d y x) d2 := by
        simp only [compositePixel]
        rw [if_pos hin]
      rw [hskip]
      refine ⟨ihlen, ?_⟩
      intro px py hpx hpy
      rw [ihget px py hpx hpy]
      have hcond : (ox ≤ (px:ℤ) ∧ (px:ℤ) < ox + (m+1:Nat) ∧ (py:ℤ) = oy + y) ↔
          (ox ≤ (px:ℤ) ∧ (px:ℤ) < ox + m ∧ (py:ℤ) = oy + y) := by
        constructor
        · rintro ⟨hA, hB, hC⟩
          refine ⟨hA, ?_, hC⟩
          rcases lt_or_eq_of_le (by omega : (px:ℤ) + 1 ≤ ox + (m+1:Nat)) with hc | hc
          · omega
          · exfalso
            omega
        · rintro ⟨hA, hB, hC⟩
          exact ⟨hA, by omega, hC⟩
      rw [if_congr hcond rfl rfl]
    · push_neg at hin
      obtain ⟨hb1, hb2, hb3, hb4⟩ := hin
      set F := (List.range m).foldl (fun d x => compositePixel src W H ox oy d y x) d2 with hF
      set px0 : Nat := (ox + (m:ℤ)).toNat with hpx0
      set py0 : Nat := (oy + (y:ℤ)).toNat with hpy0
      have hpx0W : px0 < W := by omega
      have hpy0H : py0 < H := by omega
      have hox : (px0 : ℤ) = ox + m := by omega
      have hoy : (py0 : ℤ) = oy + y := by omega
      have hFread := ihget px0 py0 hpx0W hpy0H
      rw [if_neg (by omega)] at hFread
      simp only [getPixel, Prod.mk.injEq] at hFread
      obtain ⟨hr0, hr1, hr2, hr3⟩ := hFread
      set p := blendPixel (src.data.getD ((y * src.width + m) * 4) 0)
        (src.data.getD ((y * src.width + m) * 4 + 1) 0)
        (src.data.getD ((y * src.width + m) * 4 + 2) 0)
        (src.data.getD ((y * src.width + m) * 4 + 3) 0)
        (d2.getD ((py0 * W + px0) * 4) 0) (d2.getD ((py0 * W + px0) * 4 + 1) 0)
        (d2.getD ((py0 * W + px0) * 4 + 2) 0) (d2.getD ((py0 * W + px0) * 4 + 3) 0) with hp
      have hstep : compositePixel src W H ox oy F y m =
          setPixel F ((py0 * W + px0) * 4) p.1 p.2.1 p.2.2.1 p.2.2.2 := by
        simp only [compositePixel]
        rw [if_neg (by push_neg; exact ⟨hb1, hb2, hb3, hb4⟩), hr0, hr1, hr2, hr3]
      rw [hstep]
      have hdi3 : (py0 * W + px0) * 4 + 3 < F.length := by
        rw [ihlen]
        have hmul : py0 * W ≤ (H - 1) * W := Nat.mul_le_mul_right W (by omega)
        have hWH : (H - 1) * W + W = H * W := by
          have hH : H - 1 + 1 = H := by omega
          calc (H - 1) * W + W = (H - 1 + 1) * W := by ring
          _ = H * W := by rw [hH]
        have hcomm : W * H * 4 = (H * W) * 4 := by ring
        omega
      refine ⟨by rw [setPixel_length, ihlen], ?_⟩
      intro px py hpx hpy
      by_cases hsame : px = px0 ∧ py = py0
      · obtain ⟨he1, he2⟩ := hsame
        rw [he1, he2]
        obtain ⟨hs0, hs1, hs2, hs3⟩ :=
          getD_setPixel_self F ((py0 * W + px0) * 4) p.1 p.2.1 p.2.2.1 p.2.2.2 hdi3
        rw [if_pos (by omega)]
        have hxm : ((px0:ℤ) - ox).toNat = m := by omega
        simp only [getPixel, hs0, hs1, hs2, hs3, wrap4, hxm]
      · have hne : py * W + px ≠ py0 * W + px0 :=
          pixel_index_ne W px px0 py py0 hpx hpx0W hsame
        have hget : getPixel (setPixel F ((py0 * W + px0) * 4) p.1 p.2.1 p.2.2.1 p.2.2.2)
            W px py = getPixel F W px py := by
          simp only [getPixel]
          rw [getD_setPixel_ne _ _ _ _ _ _ _ (by omega),
            getD_setPixel_ne _ _ _ _ _ _ _ (by omega),
            getD_setPixel_ne _ _ _ _ _ _ _ (by omega),
            getD_setPixel_ne _ _ _ _ _ _ _ (by omega)]
        rw [hget, ihget px py hpx hpy]
        have hcond : (ox ≤ (px:ℤ) ∧ (px:ℤ) < ox + ((m+1:Nat):ℤ) ∧ (py:ℤ) = oy + y) ↔
            (ox ≤ (px:ℤ) ∧ (px:ℤ) < ox + (m:ℤ) ∧ (py:ℤ) = oy + y) := by
          constructor
          · rintro ⟨hA, hB, hC⟩
            refine ⟨hA, ?_, hC⟩
            have hne2 : ¬ ((px:ℤ) = ox + m) := by
              intro hpxm
              exact hsame ⟨by omega, by omega⟩
            omega
          · rintro ⟨hA, hB, hC⟩
            exact ⟨hA, by omega, hC⟩
        rw [if_congr hcond rfl rfl]

lemma composite_fold_invariant (src : RawImage) (W H : Nat) (ox oy : ℤ)
    (d2 : List Nat) (hd2 : d2.length = W * H * 4) (m : Nat) :
    (((List.range m).foldl (fun d y => (List.range src.width).foldl
        (fun d2x x => compositePixel src W H ox oy d2x y x) d) d2).length = W * H * 4) ∧
    ∀ px py : Nat, px < W → py < H →
      getPixel ((List.range m).foldl (fun d y => (List.range src.width).foldl
          (fun d2x x => compositePixel src W H ox oy d2x y x) d) d2) W px py =
        (if ox ≤ (px:ℤ) ∧ (px:ℤ) < ox + src.width ∧ oy ≤ (py:ℤ) ∧ (py:ℤ) < oy + m then
          wrap4 (blendPixel
            (src.data.getD ((((py:ℤ) - oy).toNat * src.width + ((px:ℤ) - ox).toNat) * 4) 0)
            (src.data.getD ((((py:ℤ) - oy).toNat * src.width + ((px:ℤ) - ox).toNat) * 4 + 1) 0)
            (src.data.getD ((((py:ℤ) - oy).toNat * src.width + ((px:ℤ) - ox).toNat) * 4 + 2) 0)
            (src.data.getD ((((py:ℤ) - oy).toNat * src.width + ((px:ℤ) - ox).toNat) * 4 + 3) 0)
            (d2.getD ((py * W + px) * 4) 0) (d2.getD ((py * W + px) * 4 + 1) 0)
            (d2.getD ((py * W + px) * 4 + 2) 0) (d2.getD ((py * W + px) * 4 + 3) 0))
        else getPixel d2 W px py) := by
  induction m with
  | zero =>
    refine ⟨by simpa using hd2, ?_⟩
    intro px py hpx hpy
    rw [if_neg (by omega)]
    rfl
  | succ k ih =>
    obtain ⟨ihlen, ihget⟩ := ih
    rw [foldl_range_succ]
    set F := (List.range k).foldl (fun d y => (List.range src.width).foldl
      (fun d2x x => compositePixel src W H ox oy d2x y x) d) d2 with hFdef
    obtain ⟨rlen, rget⟩ := composite_row_invariant src W H ox oy k F ihlen src.width
    refine ⟨rlen, ?_⟩
    intro px py hpx hpy
    rw [rget px py hpx hpy]
    by_cases hrow : ox ≤ (px:ℤ) ∧ (px:ℤ) < ox + (src.width:ℤ) ∧ (py:ℤ) = oy + (k:ℤ)
    · rw [if_pos hrow, if_pos (by omega)]
      have hFpx := ihget px py hpx hpy
      rw [if_neg (by omega)] at hFpx
      simp only [getPixel, Prod.mk.injEq] at hFpx
      obtain ⟨h0, h1, h2, h3⟩ := hFpx
      rw [h0, h1, h2, h3]
      have hyk : ((py:ℤ) - oy).toNat = k := by omega
      rw [hyk]
    · rw [if_neg hrow, ihget px py hpx hpy]
      have hcond : (ox ≤ (px:ℤ) ∧ (px:ℤ) < ox + (src.width:ℤ) ∧ oy ≤ (py:ℤ) ∧
          (py:ℤ) < oy + (k:ℤ)) ↔
          (ox ≤ (px:ℤ) ∧ (px:ℤ) < ox + (src.width:ℤ) ∧ oy ≤ (py:ℤ) ∧
            (py:ℤ) < oy + ((k+1:Nat):ℤ)) := by
        constructor
        · rintro ⟨hA, hB, hC, hD⟩
          exact ⟨hA, hB, hC, by omega⟩
        · rintro ⟨hA, hB, hC, hD⟩
          refine ⟨hA, hB, hC, ?_⟩
          have hne2 : ¬ ((py:ℤ) = oy + k) := fun hk => hrow ⟨hA, hB, hk⟩
          omega
      rw [if_congr hcond.symm rfl rfl]

lemma compositeOver_getPixel (dst src : RawImage) (ox oy : ℤ)
    (hlen : dst.data.length = dst.width * dst.height * 4) (px py : Nat)
    (hpx : px < dst.width) (hpy : py < dst.height) :
    (compositeOver dst src ox oy).data.length = dst.width * dst.height * 4 ∧
    getPixel (compositeOver dst src ox oy).data dst.width px py =
      (if ox ≤ (px:ℤ) ∧ (px:ℤ) < ox + src.width ∧ oy ≤ (py:ℤ) ∧
          (py:ℤ) < oy + src.height then
        wrap4 (blendPixel
          (src.data.getD ((((py:ℤ) - oy).toNat * src.width + ((px:ℤ) - ox).toNat) * 4) 0)
          (src.data.getD ((((py:ℤ) - oy).toNat * src.width + ((px:ℤ) - ox).toNat) * 4 + 1) 0)
          (src.data.getD ((((py:ℤ) - oy).toNat * src.width + ((px:ℤ) - ox).toNat) * 4 + 2) 0)
          (src.data.getD ((((py:ℤ) - oy).toNat * src.width + ((px:ℤ) - ox).toNat) * 4 + 3) 0)
          (dst.data.getD ((py * dst.width + px) * 4) 0)
          (dst.data.getD ((py * dst.width + px) * 4 + 1) 0)
          (dst.data.getD ((py * dst.width + px) * 4 + 2) 0)
          (dst.data.getD ((py * dst.width + px) * 4 + 3) 0))
      else getPixel dst.data dst.width px py) := by
  obtain ⟨hl, hg⟩ := composite_fold_invariant src dst.width dst.height ox oy dst.data hlen
    src.height
  exact ⟨hl, hg px py hpx hpy⟩

lemma fill_row_invariant (W H : Nat) (x y : ℤ) (r g b a : Nat) (dy : Nat)
    (d2 : List Nat) (hd2 : d2.length = W * H * 4) (n : Nat) :
    (((List.range n).foldl (fun d dx => fillPixel W H x y r g b a d dy dx) d2).length
        = W * H * 4) ∧
    ∀ px py : Nat, px < W → py < H →
      getPixel ((List.range n).foldl (fun d dx => fillPixel W H x y r g b a d dy dx) d2)
          W px py =
        (if x ≤ (px:ℤ) ∧ (px:ℤ) < x + n ∧ (py:ℤ) = y + dy then
          (r % 256, g % 256, b % 256, a % 256)
        else getPixel d2 W px py) := by
  induction n with
  | zero =>
    refine ⟨by simpa using hd2, ?_⟩
    intro px py hpx hpy
    rw [if_neg (by omega)]
    rfl
  | succ m ih =>
    obtain ⟨ihlen, ihget⟩ := ih
    rw [foldl_range_succ]
    set F := (List.range m).foldl (fun d dx => fillPixel W H x y r g b a d dy dx) d2 with hF
    by_cases hin : x + (m:ℤ) < 0 ∨ (W:ℤ) ≤ x + (m:ℤ) ∨ y + (dy:ℤ) < 0 ∨ (H:ℤ) ≤ y + (dy:ℤ)
    · have hskip : fillPixel W H x y r g b a F dy m = F := by
        simp only [fillPixel]
        rw [if_pos hin]
      rw [hskip]
      refine ⟨ihlen, ?_⟩
      intro px py hpx hpy
      rw [ihget px py hpx hpy]
      have hcond : (x ≤ (px:ℤ) ∧ (px:ℤ) < x + ((m+1:Nat):ℤ) ∧ (py:ℤ) = y + dy) ↔
          (x ≤ (px:ℤ) ∧ (px:ℤ) < x + (m:ℤ) ∧ (py:ℤ) = y + dy) := by
        constructor
        · rintro ⟨hA, hB, hC⟩
          refine ⟨hA, by omega, hC⟩
        · rintro ⟨hA, hB, hC⟩
          exact ⟨hA, by omega, hC⟩
      rw [if_congr hcond rfl rfl]
    · push_neg at hin
      obtain ⟨hb1, hb2, hb3, hb4⟩ := hin
      set px0 : Nat := (x + (m:ℤ)).toNat with hpx0
      set py0 : Nat := (y + (dy:ℤ)).toNat with hpy0
      have hpx0W : px0 < W := by omega
      have hpy0H : py0 < H := by omega
      have hox : (px0 : ℤ) = x + m := by omega
      have hoy : (py0 : ℤ) = y + dy := by omega
      have hstep : fillPixel W H x y r g b a F dy m =
          setPixel F ((py0 * W + px0) * 4) r g b a := by
        simp only [fillPixel]
        rw [if_neg (by push_neg; exact ⟨hb1, hb2, hb3, hb4⟩)]
      rw [hstep]
      have hdi3 : (py0 * W + px0) * 4 + 3 < F.length := by
        rw [ihlen]
        have hmul : py0 * W ≤ (H - 1) * W := Nat.mul_le_mul_right W (by omega)
        have hWH : (H - 1) * W + W = H * W := by
          have hH : H - 1 + 1 = H := by omega
          calc (H - 1) * W + W = (H - 1 + 1) * W := by ring
          _ = H * W := by rw [hH]
        have hcomm : W * H * 4 = (H * W) * 4 := by ring
        omega
      refine ⟨by rw [setPixel_length, ihlen], ?_⟩
      intro px py hpx hpy
      by_cases hsame : px = px0 ∧ py = py0
      · obtain ⟨he1, he2⟩ := hsame
        rw [he1, he2]
        obtain ⟨hs0, hs1, hs2, hs3⟩ :=
          getD_setPixel_self F ((py0 * W + px0) * 4) r g b a hdi3
        rw [if_pos (by omega)]
        simp only [getPixel, hs0, hs1, hs2, hs3]
      · have hne : py * W + px ≠ py0 * W + px0 :=
          pixel_index_ne W px px0 py py0 hpx hpx0W hsame
        have hget : getPixel (setPixel F ((py0 * W + px0) * 4) r g b a) W px py
            = getPixel F W px py := by
          simp only [getPixel]
          rw [getD_setPixel_ne _ _ _ _ _ _ _ (by omega),
            getD_setPixel_ne _ _ _ _ _ _ _ (by omega),
            getD_setPixel_ne _ _ _ _ _ _ _ (by omega),
            getD_setPixel_ne _ _ _ _ _ _ _ (by omega)]
        rw [hget, ihget px py hpx hpy]
        have hcond : (x ≤ (px:ℤ) ∧ (px:ℤ) < x + ((m+1:Nat):ℤ) ∧ (py:ℤ) = y + dy) ↔
            (x ≤ (px:ℤ) ∧ (px:ℤ) < x + (m:ℤ) ∧ (py:ℤ) = y + dy) := by
          constructor
          · rintro ⟨hA, hB, hC⟩
            refine ⟨hA, ?_, hC⟩
            have hne2 : ¬ ((px:ℤ) = x + m) := by
              intro hpxm
              exact hsame ⟨by omega, by omega⟩
            omega
          · rintro ⟨hA, hB, hC⟩
            exact ⟨hA, by omega, hC⟩
        rw [if_congr hcond rfl rfl]

lemma fill_fold_invariant (W H : Nat) (x y : ℤ) (w : Nat) (r g b a : Nat)
    (d2 : List Nat) (hd2 : d2.length = W * H * 4) (m : Nat) :
    (((List.range m).foldl (fun d dy => (List.range w).foldl
        (fun d2x dx => fillPixel W H x y r g b a d2x dy dx) d) d2).length = W * H * 4) ∧
    ∀ px py : Nat, px < W → py < H →
      getPixel ((List.range m).foldl (fun d dy => (List.range w).foldl
          (fun d2x dx => fillPixel W H x y r g b a d2x dy dx) d) d2) W px py =
        (if x ≤ (px:ℤ) ∧ (px:ℤ) < x + w ∧ y ≤ (py:ℤ) ∧ (py:ℤ) < y + m then
          (r % 256, g % 256, b % 256, a % 256)
        else getPixel d2 W px py) := by
  induction m with
  | zero =>
    refine ⟨by simpa using hd2, ?_⟩
    intro px py hpx hpy
    rw [if_neg (by omega)]
    rfl
  | succ k ih =>
    obtain ⟨ihlen, ihget⟩ := ih
    rw [foldl_range_succ]
    set F := (List.range k).foldl (fun d dy => (List.range w).foldl
      (fun d2x dx => fillPixel W H x y r g b a d2x dy dx) d) d2 with hFdef
    obtain ⟨rlen, rget⟩ := fill_row_invariant W H x y r g b a k F ihlen w
    refine ⟨rlen, ?_⟩
    intro px py hpx hpy
    rw [rget px py hpx hpy]
    by_cases hrow : x ≤ (px:ℤ) ∧ (px:ℤ) < x + (w:ℤ) ∧ (py:ℤ) = y + (k:ℤ)
    · rw [if_pos hrow, if_pos (by omega)]
    · rw [if_neg hrow, ihget px py hpx hpy]
      have hcond : (x ≤ (px:ℤ) ∧ (px:ℤ) < x + (w:ℤ) ∧ y ≤ (py:ℤ) ∧
          (py:ℤ) < y + (k:ℤ)) ↔
          (x ≤ (px:ℤ) ∧ (px:ℤ) < x + (w:ℤ) ∧ y ≤ (py:ℤ) ∧
            (py:ℤ) < y + ((k+1:Nat):ℤ)) := by
        constructor
        · rintro ⟨hA, hB, hC, hD⟩
          exact ⟨hA, hB, hC, by omega⟩
        · rintro ⟨hA, hB, hC, hD⟩
          refine ⟨hA, hB, hC, ?_⟩
          have hne2 : ¬ ((py:ℤ) = y + k) := fun hk => hrow ⟨hA, hB, hk⟩
          omega
      rw [if_congr hcond.symm rfl rfl]

lemma fillRect_getPixel (img : RawImage) (x y : ℤ) (w h : Nat) (r g b a : Nat)
    (hlen : img.data.length = img.width * img.height * 4) (px py : Nat)
    (hpx : px < img.width) (hpy : py < img.height) :
    (fillRect img x y w h r g b a).data.length = img.width * img.height * 4 ∧
    getPixel (fillRect img x y w h r g b a).data img.width px py =
      (if x ≤ (px:ℤ) ∧ (px:ℤ) < x + w ∧ y ≤ (py:ℤ) ∧ (py:ℤ) < y + h then
        (r % 256, g % 256, b % 256, a % 256)
      else getPixel img.data img.width px py) := by
  obtain ⟨hl, hg⟩ := fill_fold_invariant img.width img.height x y w r g b a img.data hlen h
  exact ⟨hl, hg px py hpx hpy⟩

/-- Claim C4: a successful decode implies the buffer is at least 8 bytes,
its leading 8 bytes are the fixed magic sequence, the chunk walk found an
IHDR chunk, and the captured width and height are nonzero.
Contrapositively, `decodePNG` fails — returning `Except.error`, hence no
partial `RawImage`, for any decompressor — whenever the signature is wrong,
no IHDR chunk is found, or the captured width or height is zero. -/
theorem c4_decode_rejects_bad_inputs (inflate : List Nat → Option (List Nat))
    (buf : List Nat) (img : RawImage)
    (hok : decodePNG inflate buf = .ok img) :
    8 ≤ buf.length ∧ buf.take 8 = PNG_SIG ∧
    sawIHDR buf buf.length 8 = true ∧
    (walkChunks buf buf.length 8 ⟨0, 0, 0, 0, []⟩).width ≠ 0 ∧
    (walkChunks buf buf.length 8 ⟨0, 0, 0, 0, []⟩).height ≠ 0 := by
  simp only [decodePNG] at hok
  by_cases hsig : buf.length < 8 ∨ buf.take 8 ≠ PNG_SIG
  · rw [if_pos hsig] at hok
    cases hok
  · rw [if_neg hsig] at hok
    push_neg at hsig
    obtain ⟨hlen, htake⟩ := hsig
    by_cases hwh : (walkChunks buf buf.length 8 ⟨0, 0, 0, 0, []⟩).width = 0 ∨
        (walkChunks buf buf.length 8 ⟨0, 0, 0, 0, []⟩).height = 0
    · rw [if_pos hwh] at hok
      cases hok
    · push_neg at hwh
      refine ⟨by omega, htake, ?_, hwh.1, hwh.2⟩
      by_contra hs
      have hs' : sawIHDR buf buf.length 8 = false := by
        cases hsaw : sawIHDR buf buf.length 8
        · rfl
        · exact absurd hsaw hs
      have hdim :=
        (walkChunks_dims_of_not_sawIHDR buf buf.length 8 ⟨0, 0, 0, 0, []⟩ hs').1
      exact hwh.1 hdim

set_option maxRecDepth 100000 in
/-- Claim C4, witness: the theorem applied to a concrete successful decode
of an encoded 1×1 image. -/
theorem c4_decode_rejects_bad_inputs_witness :
    8 ≤ (encodePNG id ⟨1, 1, [1, 2, 3, 255]⟩).length ∧
    (encodePNG id ⟨1, 1, [1, 2, 3, 255]⟩).take 8 = PNG_SIG ∧
    sawIHDR (encodePNG id ⟨1, 1, [1, 2, 3, 255]⟩)
      (encodePNG id ⟨1, 1, [1, 2, 3, 255]⟩).length 8 = true ∧
    (walkChunks (encodePNG id ⟨1, 1, [1, 2, 3, 255]⟩)
      (encodePNG id ⟨1, 1, [1, 2, 3, 255]⟩).length 8 ⟨0, 0, 0, 0, []⟩).width ≠ 0 ∧
    (walkChunks (encodePNG id ⟨1, 1, [1, 2, 3, 255]⟩)
      (encodePNG id ⟨1, 1, [1, 2, 3, 255]⟩).length 8 ⟨0, 0, 0, 0, []⟩).height ≠ 0 :=
  c4_decode_rejects_bad_inputs some (encodePNG id ⟨1, 1, [1, 2, 3, 255]⟩)
    ⟨1, 1, [1, 2, 3, 255]⟩ (by decide)

lemma scaleImage_length (src : RawImage) (W H : Nat) :
    (scaleImage src W H).data.length = W * H * 4 := by
  unfold scaleImage
  rw [flatMap_range_length _ (W * 4) H]
  · ring
  · intro y _
    rw [flatMap_range_length _ 4 W]
    intro x _
    rfl

lemma scaleImage_getPixel (src : RawImage) (W H : Nat) (x y : Nat)
    (hx : x < W) (hy : y < H) :
    getPixel (scaleImage src W H).data W x y =
      (byteAt src.data ((min (jsround ((y:ℚ) / H * src.height)) ((src.height:ℤ) - 1) *
          src.width + min (jsround ((x:ℚ) / W * src.width)) ((src.width:ℤ) - 1)) * 4),
       byteAt src.data ((min (jsround ((y:ℚ) / H * src.height)) ((src.height:ℤ) - 1) *
          src.width + min (jsround ((x:ℚ) / W * src.width)) ((src.width:ℤ) - 1)) * 4 + 1),
       byteAt src.data ((min (jsround ((y:ℚ) / H * src.height)) ((src.height:ℤ) - 1) *
          src.width + min (jsround ((x:ℚ) / W * src.width)) ((src.width:ℤ) - 1)) * 4 + 2),
       byteAt src.data ((min (jsround ((y:ℚ) / H * src.height)) ((src.height:ℤ) - 1) *
          src.width + min (jsround ((x:ℚ) / W * src.width)) ((src.width:ℤ) - 1)) * 4 + 3)) := by
  have hrowlen : ∀ i, i < H → (((List.range W).flatMap (fun x2 =>
      let srcY : ℤ := min (jsround ((i : ℚ) / H * src.height)) ((src.height : ℤ) - 1)
      let srcX : ℤ := min (jsround ((x2 : ℚ) / W * src.width)) ((src.width : ℤ) - 1)
      let si : ℤ := (srcY * src.width + srcX) * 4
      [byteAt src.data si, byteAt src.data (si+1),
       byteAt src.data (si+2), byteAt src.data (si+3)])).length) = W * 4 := by
    intro i _
    rw [flatMap_range_length _ 4 W]
    intro x2 _
    rfl
  have hk : ∀ k, k < 4 → (scaleImage src W H).data.getD ((y * W + x) * 4 + k) 0 =
      byteAt src.data ((min (jsround ((y:ℚ) / H * src.height)) ((src.height:ℤ) - 1) *
        src.width + min (jsround ((x:ℚ) / W * src.width)) ((src.width:ℤ) - 1)) * 4 + k) := by
    intro k hklt
    unfold scaleImage
    have hidx : (y * W + x) * 4 + k = y * (W * 4) + (x * 4 + k) := by ring
    rw [hidx, flatMap_range_getD _ (W * 4) H y (x * 4 + k) hrowlen hy (by omega),
      flatMap_range_getD _ 4 W x k (by intro i _; rfl) hx hklt]
    interval_cases k
    · norm_num
    · norm_num
    · norm_num
    · norm_num
  have h0 := hk 0 (by omega)
  rw [show (((0:ℕ)):ℤ) = 0 from by decide, add_zero, add_zero] at h0
  have h1 := hk 1 (by omega)
  rw [show (((1:ℕ)):ℤ) = 1 from by decide] at h1
  have h2 := hk 2 (by omega)
  rw [show (((2:ℕ)):ℤ) = 2 from by decide] at h2
  have h3 := hk 3 (by omega)
  rw [show (((3:ℕ)):ℤ) = 3 from by decide] at h3
  simp only [getPixel]
  rw [h0, h1, h2, h3]

lemma scaleImage_getD (src : RawImage) (W H x y k : Nat)
    (hx : x < W) (hy : y < H) (hklt : k < 4) :
    (scaleImage src W H).data.getD ((y * W + x) * 4 + k) 0 =
      byteAt src.data ((min (jsround ((y:ℚ) / H * src.height)) ((src.height:ℤ) - 1) *
        src.width + min (jsround ((x:ℚ) / W * src.width)) ((src.width:ℤ) - 1)) * 4 + k) := by
  have hrowlen : ∀ i, i < H → (((List.range W).flatMap (fun x2 =>
      let srcY : ℤ := min (jsround ((i : ℚ) / H * src.height)) ((src.height : ℤ) - 1)
      let srcX : ℤ := min (jsround ((x2 : ℚ) / W * src.width)) ((src.width : ℤ) - 1)
      let si : ℤ := (srcY * src.width + srcX) * 4
      [byteAt src.data si, byteAt src.data (si+1),
       byteAt src.data (si+2), byteAt src.data (si+3)])).length) = W * 4 := by
    intro i _
    rw [flatMap_range_length _ 4 W]
    intro x2 _
    rfl
  unfold scaleImage
  have hidx : (y * W + x) * 4 + k = y * (W * 4) + (x * 4 + k) := by ring
  rw [hidx, flatMap_range_getD _ (W * 4) H y (x * 4 + k) hrowlen hy (by omega),
    flatMap_range_getD _ 4 W x k (by intro i _; rfl) hx hklt]
  interval_cases k
  · norm_num
  · norm_num
  · norm_num
  · norm_num

set_option maxHeartbeats 1000000 in
lemma scaleImage_identity (src : RawImage)
    (hW : 0 < src.width) (hH : 0 < src.height)
    (hlen : src.data.length = src.width * src.height * 4)
    (hbytes : ∀ b ∈ src.data, b < 256) :
    (scaleImage src src.width src.height).data = src.data := by
  apply List.ext_getElem (by rw [scaleImage_length, hlen])
  intro n h1 h2
  have hnlen : n < src.width * src.height * 4 := by rw [← hlen]; exact h2
  obtain ⟨y, x, k, hy, hx, hklt, hn⟩ : ∃ y x k, y < src.height ∧ x < src.width ∧ k < 4 ∧
      n = (y * src.width + x) * 4 + k := by
    have hW4 : 0 < src.width * 4 := by omega
    refine ⟨n / (src.width * 4), n % (src.width * 4) / 4, n % (src.width * 4) % 4,
      ?_, ?_, ?_, ?_⟩
    · rw [Nat.div_lt_iff_lt_mul hW4]
      calc n < src.width * src.height * 4 := hnlen
      _ = src.height * (src.width * 4) := by ring
    · rw [Nat.div_lt_iff_lt_mul (by omega : 0 < 4)]
      exact Nat.mod_lt _ hW4
    · exact Nat.mod_lt _ (by omega)
    · have e1 : (src.width * 4) * (n / (src.width * 4)) + n % (src.width * 4) = n :=
        Nat.div_add_mod n (src.width * 4)
      have e2 : 4 * (n % (src.width * 4) / 4) + n % (src.width * 4) % 4 =
          n % (src.width * 4) := Nat.div_add_mod (n % (src.width * 4)) 4
      calc n = (src.width * 4) * (n / (src.width * 4)) + n % (src.width * 4) := e1.symm
      _ = (src.width * 4) * (n / (src.width * 4)) +
          (4 * (n % (src.width * 4) / 4) + n % (src.width * 4) % 4) := by rw [e2]
      _ = (n / (src.width * 4) * src.width + n % (src.width * 4) / 4) * 4 +
          n % (src.width * 4) % 4 := by ring
  have hmain := scaleImage_getD src src.width src.height x y k hx hy hklt
  have hsy : min (jsround ((y:ℚ) / src.height * src.height)) ((src.height:ℤ) - 1) =
      (y:ℤ) := by
    have hq : (y:ℚ) / (src.height:ℚ) * (src.height:ℚ) = (y:ℚ) := by
      have hHne : ((src.height:ℚ)) ≠ 0 := Nat.cast_ne_zero.mpr (by omega)
      field_simp
    rw [hq, jsround_natCast]
    exact min_eq_left (by omega)
  have hsx : min (jsround ((x:ℚ) / src.width * src.width)) ((src.width:ℤ) - 1) =
      (x:ℤ) := by
    have hq : (x:ℚ) / (src.width:ℚ) * (src.width:ℚ) = (x:ℚ) := by
      have hWne : ((src.width:ℚ)) ≠ 0 := Nat.cast_ne_zero.mpr (by omega)
      field_simp
    rw [hq, jsround_natCast]
    exact min_eq_left (by omega)
  rw [hsy, hsx] at hmain
  have hcast : (((y * src.width + x) * 4 + k : ℕ) : ℤ) =
      ((y:ℤ) * src.width + x) * 4 + k := by
    push_cast
    ring
  have hbyte : byteAt src.data (((y:ℤ) * src.width + x) * 4 + k) =
      src.data.getD ((y * src.width + x) * 4 + k) 0 % 256 := by
    rw [byteAt, if_pos (by rw [← hcast]; exact Int.natCast_nonneg _), ← hcast,
      Int.toNat_natCast]
  rw [hbyte] at hmain
  have hb : src.data.getD ((y * src.width + x) * 4 + k) 0 < 256 := by
    have hin : (y * src.width + x) * 4 + k < src.data.length := by
      rw [← hn]
      exact h2
    rw [List.getD_eq_getElem _ _ hin]
    exact hbytes _ (List.getElem_mem hin)
  rw [Nat.mod_eq_of_lt hb] at hmain
  rw [← List.getD_eq_getElem _ 0 h1, ← List.getD_eq_getElem _ 0 h2, hn]
  exact hmain

lemma getD_map_range (f : Nat → Nat) (n j : Nat) (h : j < n) :
    ((List.range n).map f).getD j 0 = f j := by
  rw [List.getD_eq_getElem _ _ (by simpa using h)]
  simp

lemma index_decompose (W H n : Nat) (hW : 0 < W) (h : n < W * H * 4) :
    ∃ y x k, y < H ∧ x < W ∧ k < 4 ∧ n = (y * W + x) * 4 + k := by
  have hW4 : 0 < W * 4 := by omega
  refine ⟨n / (W * 4), n % (W * 4) / 4, n % (W * 4) % 4, ?_, ?_, ?_, ?_⟩
  · rw [Nat.div_lt_iff_lt_mul hW4]
    calc n < W * H * 4 := h
    _ = H * (W * 4) := by ring
  · rw [Nat.div_lt_iff_lt_mul (by omega : 0 < 4)]
    exact Nat.mod_lt _ hW4
  · exact Nat.mod_lt _ (by omega)
  · have e1 : (W * 4) * (n / (W * 4)) + n % (W * 4) = n := Nat.div_add_mod n (W * 4)
    have e2 : 4 * (n % (W * 4) / 4) + n % (W * 4) % 4 = n % (W * 4) :=
      Nat.div_add_mod (n % (W * 4)) 4
    calc n = (W * 4) * (n / (W * 4)) + n % (W * 4) := e1.symm
    _ = (W * 4) * (n / (W * 4)) + (4 * (n % (W * 4) / 4) + n % (W * 4) % 4) := by rw [e2]
    _ = (n / (W * 4) * W + n % (W * 4) / 4) * 4 + n % (W * 4) % 4 := by ring

lemma buildScanlines_row_length (R : RawImage) : ∀ y, y < R.height →
    ((0 : Nat) :: (List.range R.width).flatMap (fun x =>
      let idx := (y * R.width + x) * 4
      [R.data.getD idx 0 % 256, R.data.getD (idx+1) 0 % 256,
       R.data.getD (idx+2) 0 % 256, R.data.getD (idx+3) 0 % 256])).length =
    R.width * 4 + 1 := by
  intro y _
  simp only [List.length_cons]
  rw [flatMap_range_length _ 4 R.width (by intro i _; rfl)]

lemma buildScanlines_getD_filter (R : RawImage) (y : Nat) (hy : y < R.height) :
    (buildScanlines R).getD (y * (R.width * 4 + 1)) 0 = 0 := by
  unfold buildScanlines
  have hidx : y * (R.width * 4 + 1) = y * (R.width * 4 + 1) + 0 := by omega
  rw [hidx, flatMap_range_getD _ (R.width * 4 + 1) R.height y 0
    (buildScanlines_row_length R) hy (by omega)]
  rfl

lemma buildScanlines_getD_data (R : RawImage) (y x k : Nat)
    (hy : y < R.height) (hx : x < R.width) (hk : k < 4) :
    (buildScanlines R).getD (y * (R.width * 4 + 1) + (1 + (x * 4 + k))) 0 =
      R.data.getD ((y * R.width + x) * 4 + k) 0 % 256 := by
  unfold buildScanlines
  rw [flatMap_range_getD _ (R.width * 4 + 1) R.height y (1 + (x * 4 + k))
    (buildScanlines_row_length R) hy (by omega)]
  have hcons : (1 + (x * 4 + k)) = (x * 4 + k) + 1 := by omega
  rw [hcons]
  rw [List.getD_cons_succ]
  rw [flatMap_range_getD _ 4 R.width x k (by intro i _; rfl) hx hk]
  interval_cases k
  · rfl
  · rfl
  · rfl
  · rfl

lemma rowToRGBA_getD (cur : List Nat) (width x k : Nat) (hx : x < width) (hk : k < 4) :
    (rowToRGBA cur width 4).getD (x * 4 + k) 0 = cur.getD (x * 4 + k) 0 % 256 := by
  unfold rowToRGBA
  rw [flatMap_range_getD _ 4 width x k (by intro i _; rfl) hx hk]
  interval_cases k
  · norm_num
  · norm_num
  · norm_num
  · norm_num

lemma unfilterPNG_buildScanlines (R : RawImage) (hW : 0 < R.width)
    (hlen : R.data.length = R.width * R.height * 4)
    (hbytes : ∀ b ∈ R.data, b < 256) :
    unfilterPNG (buildScanlines R) R.width R.height 6 8 = R.data := by
  have hch : channelsOf 6 = 4 := rfl
  unfold unfilterPNG
  rw [hch]
  norm_num
  rw [unfilterPNG_fold_out (buildScanlines R) R.width 4 4 (R.width * 4) R.height _
    (fun y hy => Or.inl (buildScanlines_getD_filter R y hy))]
  rw [List.nil_append]
  apply List.ext_getElem
  · rw [flatMap_range_length _ (R.width * 4) R.height
      (fun i _ => rowToRGBA_length _ _ _), hlen]
    ring
  intro n h1 h2
  have hnlen : n < R.width * R.height * 4 := by rw [← hlen]; exact h2
  obtain ⟨y, x, k, hy, hx, hk, hn⟩ := index_decompose R.width R.height n hW hnlen
  rw [← List.getD_eq_getElem _ 0 h1, ← List.getD_eq_getElem _ 0 h2, hn]
  have hidx : (y * R.width + x) * 4 + k = y * (R.width * 4) + (x * 4 + k) := by ring
  rw [hidx, flatMap_range_getD _ (R.width * 4) R.height y (x * 4 + k)
    (fun i _ => rowToRGBA_length _ _ _) hy (by omega)]
  rw [rowToRGBA_getD _ _ x k hx hk]
  rw [getD_map_range _ _ _ (by omega : x * 4 + k < R.width * 4)]
  have ha : y * (R.width * 4 + 1) + 1 + (x * 4 + k) =
      y * (R.width * 4 + 1) + (1 + (x * 4 + k)) := by omega
  rw [ha, buildScanlines_getD_data R y x k hy hx hk]
  have hin : (y * R.width + x) * 4 + k < R.data.length := by
    rw [hlen, ← hn]
    exact hnlen
  have hbv : R.data.getD ((y * R.width + x) * 4 + k) 0 < 256 := by
    rw [List.getD_eq_getElem _ _ hin]
    exact hbytes _ (List.getElem_mem hin)
  rw [show y * (R.width * 4) + (x * 4 + k) = (y * R.width + x) * 4 + k from by ring]
  omega

lemma encodePNG_shape (deflate : List Nat → List Nat) (R : RawImage) :
    encodePNG deflate R = PNG_SIG ++ (makeChunk IHDR_TYPE (ihdrData R.width R.height) ++
      (makeChunk IDAT_TYPE (deflate (buildScanlines R)) ++ makeChunk IEND_TYPE [])) := by
  simp only [encodePNG]
  simp [List.append_assoc]

lemma ihdrData_length (w h : Nat) : (ihdrData w h).length = 13 := rfl

lemma encodePNG_length (deflate : List Nat → List Nat) (R : RawImage) :
    (encodePNG deflate R).length = 57 + (deflate (buildScanlines R)).length := by
  rw [encodePNG_shape]
  simp only [List.length_append, makeChunk_length IHDR_TYPE _ rfl,
    makeChunk_length IDAT_TYPE _ rfl, makeChunk_length IEND_TYPE _ rfl, ihdrData_length]
  simp [PNG_SIG]
  omega

lemma readUInt32BE_ihdrData_width (w h : Nat) (hw : w < 2^32) :
    readUInt32BE (ihdrData w h) 0 = w := by
  unfold ihdrData
  rw [List.append_assoc]
  exact readUInt32BE_u32be w hw _

lemma readUInt32BE_ihdrData_height (w h : Nat) (hh : h < 2^32) :
    readUInt32BE (ihdrData w h) 4 = h := by
  rw [← readUInt32BE_drop]
  unfold ihdrData
  rw [List.append_assoc, List.drop_left' (by rfl : (u32be w).length = 4)]
  exact readUInt32BE_u32be h hh _

lemma walkChunks_encodePNG (deflate : List Nat → List Nat) (R : RawImage)
    (hW32 : R.width < 2^32) (hH32 : R.height < 2^32)
    (hc32 : (deflate (buildScanlines R)).length < 2^32) :
    walkChunks (encodePNG deflate R) (encodePNG deflate R).length 8 ⟨0, 0, 0, 0, []⟩ =
      ⟨R.width, R.height, 8, 6, [deflate (buildScanlines R)]⟩ := by
  have hdrop8 : (encodePNG deflate R).drop 8 =
      makeChunk IHDR_TYPE (ihdrData R.width R.height) ++
        (makeChunk IDAT_TYPE (deflate (buildScanlines R)) ++ makeChunk IEND_TYPE []) := by
    rw [encodePNG_shape]
    exact List.drop_left' rfl
  have hdrop33 : (encodePNG deflate R).drop 33 =
      makeChunk IDAT_TYPE (deflate (buildScanlines R)) ++ makeChunk IEND_TYPE [] := by
    rw [show (33:ℕ) = 8 + 25 from rfl, ← List.drop_drop, hdrop8,
      List.drop_left' (by rw [makeChunk_length IHDR_TYPE _ rfl, ihdrData_length])]
  have hdrop45 : (encodePNG deflate R).drop (45 + (deflate (buildScanlines R)).length) =
      makeChunk IEND_TYPE [] ++ [] := by
    rw [show 45 + (deflate (buildScanlines R)).length =
      33 + (12 + (deflate (buildScanlines R)).length) from by omega, ← List.drop_drop,
      hdrop33, List.drop_left' (makeChunk_length IDAT_TYPE _ rfl), List.append_nil]
  rw [encodePNG_length, show 57 + (deflate (buildScanlines R)).length =
    (56 + (deflate (buildScanlines R)).length) + 1 from by omega]
  rw [walkChunks_IHDR _ _ _ _ _ _ hdrop8 (by rw [ihdrData_length]; norm_num)]
  rw [show 8 + 12 + (ihdrData R.width R.height).length = 33 from rfl]
  rw [show 56 + (deflate (buildScanlines R)).length =
    (55 + (deflate (buildScanlines R)).length) + 1 from by omega]
  rw [walkChunks_IDAT _ _ _ _ _ _ hdrop33 hc32]
  rw [show 33 + 12 + (deflate (buildScanlines R)).length =
    45 + (deflate (buildScanlines R)).length from by omega]
  rw [show 55 + (deflate (buildScanlines R)).length =
    (54 + (deflate (buildScanlines R)).length) + 1 from by omega]
  rw [walkChunks_IEND _ _ _ _ _ _ hdrop45 (by norm_num)]
  rw [readUInt32BE_ihdrData_width _ _ hW32, readUInt32BE_ihdrData_height _ _ hH32]
  rfl

/-- Claim C3, counterexample: compositing a fully transparent source pixel
does NOT always leave the destination pixel unchanged: when the destination
alpha is also 0 the code writes transparent black, clobbering the
destination RGB (5,6,7,0) to (0,0,0,0). -/
theorem c3_composite_transparent_counterexample :
    getPixel (compositeOver ⟨1, 1, [5, 6, 7, 0]⟩ ⟨1, 1, [9, 9, 9, 0]⟩ 0 0).data 1 0 0 ≠
      getPixel (RawImage.mk 1 1 [5, 6, 7, 0]).data 1 0 0 := by
  obtain ⟨-, hg⟩ := compositeOver_getPixel ⟨1, 1, [5, 6, 7, 0]⟩ ⟨1, 1, [9, 9, 9, 0]⟩
    (0:ℤ) (0:ℤ) (by decide) 0 0 (by decide) (by decide)
  rw [if_pos (by decide)] at hg
  norm_num at hg
  rw [hg, blendPixel_clear_both]
  decide

/-- Claim C3, amended: compositing a source pixel with alpha 0 over an
in-bounds destination pixel leaves the destination pixel's four bytes
unchanged whenever the destination alpha is nonzero; when the destination
alpha is 0 (so `outA = 0`), the pixel is set to transparent black
(0,0,0,0) instead. -/
theorem c3_composite_transparent_amended (dst src : RawImage) (ox oy : ℤ) (px py : Nat)
    (hlen : dst.data.length = dst.width * dst.height * 4)
    (hpx : px < dst.width) (hpy : py < dst.height)
    (hcov : ox ≤ (px:ℤ) ∧ (px:ℤ) < ox + src.width ∧ oy ≤ (py:ℤ) ∧
      (py:ℤ) < oy + src.height)
    (hsa : src.data.getD
      ((((py:ℤ)-oy).toNat * src.width + ((px:ℤ)-ox).toNat) * 4 + 3) 0 = 0)
    (hdr : dst.data.getD ((py * dst.width + px) * 4) 0 < 256)
    (hdg : dst.data.getD ((py * dst.width + px) * 4 + 1) 0 < 256)
    (hdb : dst.data.getD ((py * dst.width + px) * 4 + 2) 0 < 256)
    (hda : dst.data.getD ((py * dst.width + px) * 4 + 3) 0 < 256) :
    (0 < dst.data.getD ((py * dst.width + px) * 4 + 3) 0 →
      getPixel (compositeOver dst src ox oy).data dst.width px py =
        getPixel dst.data dst.width px py) ∧
    (dst.data.getD ((py * dst.width + px) * 4 + 3) 0 = 0 →
      getPixel (compositeOver dst src ox oy).data dst.width px py = (0, 0, 0, 0)) := by
  obtain ⟨-, hg⟩ := compositeOver_getPixel dst src ox oy hlen px py hpx hpy
  rw [if_pos hcov, hsa] at hg
  constructor
  · intro hpos
    rw [hg, blendPixel_clear_src _ _ _ _ _ _ _ hpos]
    simp only [wrap4, getPixel]
    rw [Nat.mod_eq_of_lt hdr, Nat.mod_eq_of_lt hdg, Nat.mod_eq_of_lt hdb,
      Nat.mod_eq_of_lt hda]
  · intro hzero
    rw [hg, hzero, blendPixel_clear_both]
    rfl

/-- Claim C3, witness: a transparent source pixel over an opaque-ish
destination pixel (alpha 9 > 0) leaves the destination unchanged. -/
theorem c3_composite_transparent_amended_witness :
    getPixel (compositeOver ⟨1, 1, [5, 6, 7, 9]⟩ ⟨1, 1, [9, 9, 9, 0]⟩ 0 0).data 1 0 0 =
      getPixel (RawImage.mk 1 1 [5, 6, 7, 9]).data 1 0 0 :=
  (c3_composite_transparent_amended ⟨1, 1, [5, 6, 7, 9]⟩ ⟨1, 1, [9, 9, 9, 0]⟩ 0 0 0 0
    (by decide) (by decide) (by decide) (by decide) (by decide) (by decide) (by decide)
    (by decide) (by decide)).1 (by decide)

/-- Claim C6: compositing a fully opaque source pixel (alpha 255) over any
in-bounds destination pixel yields exactly the source RGB with alpha 255;
by `blendPixel`, this is the source-over formula `outA = sa + da*(1-sa)`
with channels `round((src*sa + dst*da*(1-sa))/outA)` at `sa = 1`. -/
theorem c6_composite_opaque_source (dst src : RawImage) (ox oy : ℤ) (px py : Nat)
    (hlen : dst.data.length = dst.width * dst.height * 4)
    (hpx : px < dst.width) (hpy : py < dst.height)
    (hcov : ox ≤ (px:ℤ) ∧ (px:ℤ) < ox + src.width ∧ oy ≤ (py:ℤ) ∧
      (py:ℤ) < oy + src.height)
    (hsa : src.data.getD
      ((((py:ℤ)-oy).toNat * src.width + ((px:ℤ)-ox).toNat) * 4 + 3) 0 = 255)
    (hsr : src.data.getD ((((py:ℤ)-oy).toNat * src.width + ((px:ℤ)-ox).toNat) * 4) 0 < 256)
    (hsg : src.data.getD
      ((((py:ℤ)-oy).toNat * src.width + ((px:ℤ)-ox).toNat) * 4 + 1) 0 < 256)
    (hsb : src.data.getD
      ((((py:ℤ)-oy).toNat * src.width + ((px:ℤ)-ox).toNat) * 4 + 2) 0 < 256) :
    getPixel (compositeOver dst src ox oy).data dst.width px py =
      (src.data.getD ((((py:ℤ)-oy).toNat * src.width + ((px:ℤ)-ox).toNat) * 4) 0,
       src.data.getD ((((py:ℤ)-oy).toNat * src.width + ((px:ℤ)-ox).toNat) * 4 + 1) 0,
       src.data.getD ((((py:ℤ)-oy).toNat * src.width + ((px:ℤ)-ox).toNat) * 4 + 2) 0,
       255) := by
  obtain ⟨-, hg⟩ := compositeOver_getPixel dst src ox oy hlen px py hpx hpy
  rw [if_pos hcov, hsa] at hg
  rw [hg, blendPixel_opaque]
  simp only [wrap4]
  rw [Nat.mod_eq_of_lt hsr, Nat.mod_eq_of_lt hsg, Nat.mod_eq_of_lt hsb]

/-- Claim C6, witness: an opaque source pixel (10,20,30,255) replaces the
destination pixel (1,2,3,4). -/
theorem c6_composite_opaque_source_witness :
    getPixel (compositeOver ⟨1, 1, [1, 2, 3, 4]⟩ ⟨1, 1, [10, 20, 30, 255]⟩ 0 0).data 1 0 0 =
      (10, 20, 30, 255) :=
  c6_composite_opaque_source ⟨1, 1, [1, 2, 3, 4]⟩ ⟨1, 1, [10, 20, 30, 255]⟩ 0 0 0 0
    (by decide) (by decide) (by decide) (by decide) (by decide) (by decide) (by decide)
    (by decide)

/-- Claim C8: `fillRect` and `compositeOver` are total (they never fail,
for any rectangle or placement, including ones partly or wholly outside
the destination): both preserve the buffer length, and every in-bounds
destination pixel outside the targeted region keeps its exact prior value;
coordinates outside `[0,width) × [0,height)` are skipped by the bounds
check in `fillPixel`/`compositePixel`. -/
theorem c8_bounds_clipping (img src : RawImage) (x y ox oy : ℤ) (w h : Nat)
    (r g b a : Nat) (px py : Nat)
    (hlen : img.data.length = img.width * img.height * 4)
    (hpx : px < img.width) (hpy : py < img.height)
    (hout1 : ¬ (x ≤ (px:ℤ) ∧ (px:ℤ) < x + w ∧ y ≤ (py:ℤ) ∧ (py:ℤ) < y + h))
    (hout2 : ¬ (ox ≤ (px:ℤ) ∧ (px:ℤ) < ox + src.width ∧ oy ≤ (py:ℤ) ∧
      (py:ℤ) < oy + src.height)) :
    (fillRect img x y w h r g b a).data.length = img.data.length ∧
    getPixel (fillRect img x y w h r g b a).data img.width px py =
      getPixel img.data img.width px py ∧
    (compositeOver img src ox oy).data.length = img.data.length ∧
    getPixel (compositeOver img src ox oy).data img.width px py =
      getPixel img.data img.width px py := by
  obtain ⟨hfl, hfg⟩ := fillRect_getPixel img x y w h r g b a hlen px py hpx hpy
  obtain ⟨hcl, hcg⟩ := compositeOver_getPixel img src ox oy hlen px py hpx hpy
  rw [if_neg hout1] at hfg
  rw [if_neg hout2] at hcg
  exact ⟨by rw [hfl, hlen], hfg, by rw [hcl, hlen], hcg⟩

/-- Claim C8, witness: a fill rectangle and a source placement that both
stick out past the right edge of a 2×1 destination leave the pixel at
(1,0) — outside both targets — untouched. -/
theorem c8_bounds_clipping_witness :
    (fillRect ⟨2, 1, [1, 2, 3, 4, 5, 6, 7, 8]⟩ (-1) 0 2 3 255 255 255 255).data.length =
      (RawImage.mk 2 1 [1, 2, 3, 4, 5, 6, 7, 8]).data.length ∧
    getPixel (fillRect ⟨2, 1, [1, 2, 3, 4, 5, 6, 7, 8]⟩ (-1) 0 2 3 255 255 255 255).data
        2 1 0 =
      getPixel (RawImage.mk 2 1 [1, 2, 3, 4, 5, 6, 7, 8]).data 2 1 0 ∧
    (compositeOver ⟨2, 1, [1, 2, 3, 4, 5, 6, 7, 8]⟩ ⟨1, 1, [9, 9, 9, 255]⟩
        (-2) (-1)).data.length =
      (RawImage.mk 2 1 [1, 2, 3, 4, 5, 6, 7, 8]).data.length ∧
    getPixel (compositeOver ⟨2, 1, [1, 2, 3, 4, 5, 6, 7, 8]⟩ ⟨1, 1, [9, 9, 9, 255]⟩
        (-2) (-1)).data 2 1 0 =
      getPixel (RawImage.mk 2 1 [1, 2, 3, 4, 5, 6, 7, 8]).data 2 1 0 :=
  c8_bounds_clipping ⟨2, 1, [1, 2, 3, 4, 5, 6, 7, 8]⟩ ⟨1, 1, [9, 9, 9, 255]⟩
    (-1) 0 (-2) (-1) 2 3 255 255 255 255 1 0 (by decide) (by decide) (by decide)
    (by decide) (by decide)

/-- Claim C7: nearest-neighbour resampling maps destination pixel (x, y) to
the source pixel at `min(round(x / targetW * srcW), srcW - 1)` and
`min(round(y / targetH * srcH), srcH - 1)`, and resampling a Raster to its
own dimensions reproduces its pixel data exactly. -/
theorem c7_scale_nearest_neighbor (src : RawImage) (W H x y : Nat)
    (hx : x < W) (hy : y < H)
    (hW : 0 < src.width) (hH : 0 < src.height)
    (hlen : src.data.length = src.width * src.height * 4)
    (hbytes : ∀ b ∈ src.data, b < 256) :
    getPixel (scaleImage src W H).data W x y =
      (byteAt src.data ((min (jsround ((y:ℚ) / H * src.height)) ((src.height:ℤ) - 1) *
          src.width + min (jsround ((x:ℚ) / W * src.width)) ((src.width:ℤ) - 1)) * 4),
       byteAt src.data ((min (jsround ((y:ℚ) / H * src.height)) ((src.height:ℤ) - 1) *
          src.width + min (jsround ((x:ℚ) / W * src.width)) ((src.width:ℤ) - 1)) * 4 + 1),
       byteAt src.data ((min (jsround ((y:ℚ) / H * src.height)) ((src.height:ℤ) - 1) *
          src.width + min (jsround ((x:ℚ) / W * src.width)) ((src.width:ℤ) - 1)) * 4 + 2),
       byteAt src.data ((min (jsround ((y:ℚ) / H * src.height)) ((src.height:ℤ) - 1) *
          src.width + min (jsround ((x:ℚ) / W * src.width)) ((src.width:ℤ) - 1)) * 4 + 3)) ∧
    (scaleImage src src.width src.height).data = src.data :=
  ⟨scaleImage_getPixel src W H x y hx hy, scaleImage_identity src hW hH hlen hbytes⟩

/-- Claim C7, witness: resampling a 2×1 image to its own 2×1 size returns
its pixel data unchanged. -/
theorem c7_scale_nearest_neighbor_witness :
    (scaleImage ⟨2, 1, [1, 2, 3, 4, 5, 6, 7, 8]⟩ 2 1).data = [1, 2, 3, 4, 5, 6, 7, 8] :=
  (c7_scale_nearest_neighbor ⟨2, 1, [1, 2, 3, 4, 5, 6, 7, 8]⟩ 2 1 0 0 (by decide)
    (by decide) (by decide) (by decide) (by decide) (by decide)).2

/-- Claim C1: decoding the bytes produced by encoding a Raster (positive
u32 dimensions, RGBA invariant `data.length = width*height*4`, byte-valued
entries) yields the Raster bit-for-bit, provided the external DEFLATE
compress/decompress pair is an exact inverse (and the compressed stream
fits a u32 chunk length, as the container requires). -/
theorem c1_roundtrip (deflate : List Nat → List Nat)
    (inflate : List Nat → Option (List Nat))
    (hinv : ∀ l, inflate (deflate l) = some l) (R : RawImage)
    (hW : 0 < R.width) (hH : 0 < R.height)
    (hW32 : R.width < 2^32) (hH32 : R.height < 2^32)
    (hlen : R.data.length = R.width * R.height * 4)
    (hbytes : ∀ b ∈ R.data, b < 256)
    (hc32 : (deflate (buildScanlines R)).length < 2^32) :
    decodePNG inflate (encodePNG deflate R) = .ok R := by
  have hsig : ¬ ((encodePNG deflate R).length < 8 ∨
      (encodePNG deflate R).take 8 ≠ PNG_SIG) := by
    push_neg
    constructor
    · rw [encodePNG_length]
      omega
    · rw [encodePNG_shape]
      exact List.take_left' rfl
  simp only [decodePNG]
  rw [if_neg hsig, walkChunks_encodePNG deflate R hW32 hH32 hc32]
  rw [if_neg (by dsimp only []; push_neg; exact ⟨by omega, by omega⟩)]
  have hfl : ([deflate (buildScanlines R)] : List (List Nat)).flatten =
      deflate (buildScanlines R) := by simp
  rw [hfl, hinv (buildScanlines R)]
  show Except.ok ⟨R.width, R.height,
    unfilterPNG (buildScanlines R) R.width R.height 6 8⟩ = Except.ok R
  rw [unfilterPNG_buildScanlines R hW hlen hbytes]

set_option maxRecDepth 100000 in
/-- Claim C1, witness: the round-trip theorem applied to a concrete 1×1
raster with the identity compressor pair. -/
theorem c1_roundtrip_witness :
    decodePNG some (encodePNG id ⟨1, 1, [1, 2, 3, 255]⟩) = .ok ⟨1, 1, [1, 2, 3, 255]⟩ :=
  c1_roundtrip id some (fun l => rfl) ⟨1, 1, [1, 2, 3, 255]⟩ (by decide) (by decide)
    (by decide) (by decide) (by decide) (by decide) (by decide)

/-- Claim C5: when the base (QR) image decodes successfully but the logo
bytes fail to decode, `embedLogo` fails with the error naming the logo and
stating that only the PNG container is supported for logo embedding; when
the base image fails to decode, it fails with the error naming the QR
image; the two messages differ, so callers can tell the failures apart. -/
theorem c5_embedLogo_error_discrimination
    (deflate : List Nat → List Nat) (inflate : List Nat → Option (List Nat))
    (qrA qrB logoBytes : List Nat) (sizePercent margin : Nat)
    (qrImage : RawImage) (e1 e2 : String)
    (hok : decodePNG inflate qrA = .ok qrImage)
    (hlogoerr : decodePNG inflate logoBytes = .error e1)
    (hqrerr : decodePNG inflate qrB = .error e2) :
    embedLogo deflate inflate qrA logoBytes sizePercent margin =
      .error "Failed to decode logo image. Only PNG format is supported for logo embedding." ∧
    embedLogo deflate inflate qrB logoBytes sizePercent margin =
      .error "Failed to decode QR PNG image." ∧
    ("Failed to decode logo image. Only PNG format is supported for logo embedding." : String)
      ≠ "Failed to decode QR PNG image." := by
  refine ⟨?_, ?_, by decide⟩
  · simp only [embedLogo, hok, hlogoerr]
  · simp only [embedLogo, hqrerr]

set_option maxRecDepth 100000 in
/-- Claim C5, witness: a well-formed base buffer with an empty logo buffer
produces the logo error; an empty base buffer produces the QR error. -/
theorem c5_embedLogo_error_discrimination_witness :
    embedLogo id some (encodePNG id ⟨1, 1, [0, 0, 0, 255]⟩) [] 20 4 =
      .error "Failed to decode logo image. Only PNG format is supported for logo embedding." ∧
    embedLogo id some [] [] 20 4 = .error "Failed to decode QR PNG image." ∧
    ("Failed to decode logo image. Only PNG format is supported for logo embedding." : String)
      ≠ "Failed to decode QR PNG image." :=
  c5_embedLogo_error_discrimination id some (encodePNG id ⟨1, 1, [0, 0, 0, 255]⟩) [] []
    20 4 ⟨1, 1, [0, 0, 0, 255]⟩ "Not a valid PNG" "Not a valid PNG"
    (by decide) (by decide) (by decide)

/-- Claim C2, counterexample: the Paeth predictor is NOT always the left or
the above byte.  At `left = 0`, `above = 2`, `upperLeft = 1` the predictor
returns the upper-left byte `1`, which is neither `left` nor `above`. -/
theorem c2_paeth_counterexample :
    paethPredictor 0 2 1 ≠ 0 ∧ paethPredictor 0 2 1 ≠ 2 ∧ paethPredictor 0 2 1 = 1 := by
  decide

/-- Claim C2, amended: the filter-type-4 reconstruction adds the Paeth
predictor of (left, above, upper-left) modulo 256, and the predictor picks
whichever of left, above or UPPER-LEFT is closest to
`left + above - upperLeft`, with ties broken in favour of left, then above
(so the result is one of the three neighbours, not necessarily left or
above). -/
theorem c2_paeth_predictor_amended (a b c : Nat) (raw prev : List Nat) (bpp i : Nat)
    (hi : i < raw.length) :
    (paethPredictor a b c = a ∨ paethPredictor a b c = b ∨ paethPredictor a b c = c) ∧
    (((a:ℤ) + b - c) - paethPredictor a b c).natAbs ≤ (((a:ℤ) + b - c) - a).natAbs ∧
    (((a:ℤ) + b - c) - paethPredictor a b c).natAbs ≤ (((a:ℤ) + b - c) - b).natAbs ∧
    (((a:ℤ) + b - c) - paethPredictor a b c).natAbs ≤ (((a:ℤ) + b - c) - c).natAbs ∧
    ((((a:ℤ)+b-c) - a).natAbs ≤ (((a:ℤ)+b-c) - b).natAbs ∧
      (((a:ℤ)+b-c) - a).natAbs ≤ (((a:ℤ)+b-c) - c).natAbs → paethPredictor a b c = a) ∧
    ((((a:ℤ)+b-c) - b).natAbs < (((a:ℤ)+b-c) - a).natAbs ∧
      (((a:ℤ)+b-c) - b).natAbs ≤ (((a:ℤ)+b-c) - c).natAbs → paethPredictor a b c = b) ∧
    ((((a:ℤ)+b-c) - c).natAbs < (((a:ℤ)+b-c) - a).natAbs ∧
      (((a:ℤ)+b-c) - c).natAbs < (((a:ℤ)+b-c) - b).natAbs → paethPredictor a b c = c) ∧
    (unfilterRow 4 raw prev bpp).getD i 0 =
      (raw.getD i 0 +
        paethPredictor
          (if bpp ≤ i then ((unfilterRow 4 raw prev bpp).take i).getD (i - bpp) 0 else 0)
          (prev.getD i 0)
          (if bpp ≤ i then prev.getD (i - bpp) 0 else 0)) % 256 := by
  refine ⟨?_, ?_, ?_, ?_, ?_, ?_, ?_, ?_⟩
  · simp only [paethPredictor]
    split_ifs <;> simp_all
  · simp only [paethPredictor]
    split_ifs
    all_goals omega
  · simp only [paethPredictor]
    split_ifs
    all_goals omega
  · simp only [paethPredictor]
    split_ifs
    all_goals omega
  · intro h
    simp only [paethPredictor]
    split_ifs
    all_goals omega
  · intro h
    simp only [paethPredictor]
    split_ifs
    all_goals omega
  · intro h
    simp only [paethPredictor]
    split_ifs
    all_goals omega
  · rw [unfilterRow_getD 4 raw prev bpp i hi]
    simp only [unfilterByte]

/-- Claim C2, witness for the amended theorem at
`a = 3, b = 7, c = 5, raw = [10, 20], prev = [1, 2], bpp = 1, i = 1`. -/
theorem c2_paeth_predictor_amended_witness :
    (paethPredictor 3 7 5 = 3 ∨ paethPredictor 3 7 5 = 7 ∨ paethPredictor 3 7 5 = 5) ∧
    (((3:ℤ) + 7 - 5) - paethPredictor 3 7 5).natAbs ≤ (((3:ℤ) + 7 - 5) - 3).natAbs ∧
    (((3:ℤ) + 7 - 5) - paethPredictor 3 7 5).natAbs ≤ (((3:ℤ) + 7 - 5) - 7).natAbs ∧
    (((3:ℤ) + 7 - 5) - paethPredictor 3 7 5).natAbs ≤ (((3:ℤ) + 7 - 5) - 5).natAbs ∧
    ((((3:ℤ)+7-5) - 3).natAbs ≤ (((3:ℤ)+7-5) - 7).natAbs ∧
      (((3:ℤ)+7-5) - 3).natAbs ≤ (((3:ℤ)+7-5) - 5).natAbs → paethPredictor 3 7 5 = 3) ∧
    ((((3:ℤ)+7-5) - 7).natAbs < (((3:ℤ)+7-5) - 3).natAbs ∧
      (((3:ℤ)+7-5) - 7).natAbs ≤ (((3:ℤ)+7-5) - 5).natAbs → paethPredictor 3 7 5 = 7) ∧
    ((((3:ℤ)+7-5) - 5).natAbs < (((3:ℤ)+7-5) - 3).natAbs ∧
      (((3:ℤ)+7-5) - 5).natAbs < (((3:ℤ)+7-5) - 7).natAbs → paethPredictor 3 7 5 = 5) ∧
    (unfilterRow 4 [10, 20] [1, 2] 1).getD 1 0 =
      ([10, 20].getD 1 0 +
        paethPredictor
          (if 1 ≤ 1 then ((unfilterRow 4 [10, 20] [1, 2] 1).take 1).getD (1 - 1) 0 else 0)
          ([1, 2].getD 1 0)
          (if 1 ≤ 1 then [1, 2].getD (1 - 1) 0 else 0)) % 256 :=
  c2_paeth_predictor_amended 3 7 5 [10, 20] [1, 2] 1 1 (by decide)

set_option maxRecDepth 4000 in
/-- Claim C9: the CRC-32 of the ASCII bytes of "123456789" is the standard
check value `0xCBF43926`. -/
theorem c9_crc32_check_value :
    crc32 [49, 50, 51, 52, 53, 54, 55, 56, 57] = 0xCBF43926 := by
  decide

/-- Claim C10: a scanline whose filter-type byte is outside 0..4 is passed
through unchanged by the reconstruction loop — exactly like filter type 0
(None) — and `unfilterPNG` always yields a full `width*height*4` RGBA
buffer, so decoding proceeds normally. -/
theorem c10_unknown_filter_passthrough (fb : Nat) (hfb : 5 ≤ fb)
    (raw prev : List Nat) (bpp : Nat)
    (rawStream : List Nat) (w h ct bd : Nat) :
    unfilterRow fb raw prev bpp = raw ∧
    unfilterRow fb raw prev bpp = unfilterRow 0 raw prev bpp ∧
    (unfilterPNG rawStream w h ct bd).length = w * h * 4 := by
  refine ⟨unfilterRow_passthrough fb raw prev bpp (Or.inr hfb), ?_, unfilterPNG_length _ _ _ _ _⟩
  rw [unfilterRow_passthrough fb raw prev bpp (Or.inr hfb),
    unfilterRow_passthrough 0 raw prev bpp (Or.inl rfl)]

/-- Claim C10, witness at filter byte 5 on a concrete row and stream. -/
theorem c10_unknown_filter_passthrough_witness :
    unfilterRow 5 [7, 200] [1, 1] 1 = [7, 200] ∧
    unfilterRow 5 [7, 200] [1, 1] 1 = unfilterRow 0 [7, 200] [1, 1] 1 ∧
    (unfilterPNG [1, 2, 3, 4, 5] 1 1 6 8).length = 1 * 1 * 4 :=
  c10_unknown_filter_passthrough 5 (by decide) [7, 200] [1, 1] 1 [1, 2, 3, 4, 5] 1 1 6 8

end QRForge
